import Mathlib

/-
Shallow embedding of the FEAScript finite-element pipeline
(structured mesh generation, basis functions, Gauss quadrature,
Galerkin assembly and thermal boundary-condition imposition),
together with theorems settling the specification claims.

Conventions of the embedding:
* all numeric computation is over a linear ordered field F
  (the JavaScript source computes with IEEE doubles; the claims are
  about the exact arithmetic the code expresses);
* the single irrational constant Math.sqrt(3/5) of
  numericalIntegrationScript.js is passed in as an explicit
  parameter sqrt35, so that the definitions stay executable;
* dense matrices and vectors are total functions Nat → F and
  Nat → Nat → F; where the source reads residualVector.length the
  length is passed explicitly as a parameter n;
* JavaScript runtime failures (calling .forEach on undefined when a
  boundary-condition key has no boundary-element list) are modelled
  with Except String;
* mesh arrays (node coordinates, nodal numbering, boundary-element
  lists) are Lists built in exactly the order the source loops fill
  them.
-/

/-- Lagrange factor 1-c of the 2D linear basis (basisFunctions.getBasisFunctions,
inner function l1 of the linear branch). -/
def lin1 {F : Type} [LinearOrderedField F] (c : F) : F := 1 - c

/-- Lagrange factor c of the 2D linear basis (inner function l2 of the linear branch). -/
def lin2 {F : Type} [LinearOrderedField F] (c : F) : F := c

/-- Quadratic Lagrange factor 2c^2-3c+1 (inner function l1 of the quadratic branch). -/
def quadL1 {F : Type} [LinearOrderedField F] (c : F) : F := 2 * c ^ 2 - 3 * c + 1

/-- Quadratic Lagrange factor -4c^2+4c (inner function l2 of the quadratic branch). -/
def quadL2 {F : Type} [LinearOrderedField F] (c : F) : F := -4 * c ^ 2 + 4 * c

/-- Quadratic Lagrange factor 2c^2-c (inner function l3 of the quadratic branch). -/
def quadL3 {F : Type} [LinearOrderedField F] (c : F) : F := 2 * c ^ 2 - c

/-- Derivative 4c-3 of quadL1 (inner function dl1 of the quadratic branch). -/
def quadDl1 {F : Type} [LinearOrderedField F] (c : F) : F := 4 * c - 3

/-- Derivative -8c+4 of quadL2 (inner function dl2 of the quadratic branch). -/
def quadDl2 {F : Type} [LinearOrderedField F] (c : F) : F := -8 * c + 4

/-- Derivative 4c-1 of quadL3 (inner function dl3 of the quadratic branch). -/
def quadDl3 {F : Type} [LinearOrderedField F] (c : F) : F := 4 * c - 1

/-- Embedding of basisFunctions.getBasisFunctions.  Returns the triple
(basisFunction, basisFunctionDerivKsi, basisFunctionDerivEta).  A 2D call
with a missing eta logs and returns undefined in the source; that case is
modelled as none.  Unsupported dimension/order combinations return the
object with its arrays still empty, exactly as the source does. -/
def getBasisFunctions {F : Type} [LinearOrderedField F]
    (meshDimension elementOrder : String) (ksi : F) (eta : Option F) :
    Option (List F × List F × List F) :=
  if meshDimension = "1D" then
    if elementOrder = "linear" then
      some ([1 - ksi, ksi], [-1, 1], [])
    else if elementOrder = "quadratic" then
      some ([1 - 3 * ksi + 2 * ksi ^ 2, 4 * ksi - 4 * ksi ^ 2, -ksi + 2 * ksi ^ 2],
            [-3 + 4 * ksi, 4 - 8 * ksi, -1 + 4 * ksi], [])
    else some ([], [], [])
  else if meshDimension = "2D" then
    match eta with
    | none => none
    | some eta =>
      if elementOrder = "linear" then
        some ([lin1 ksi * lin1 eta, lin1 ksi * lin2 eta, lin2 ksi * lin1 eta, lin2 ksi * lin2 eta],
              [-1 * lin1 eta, -1 * lin2 eta, 1 * lin1 eta, 1 * lin2 eta],
              [lin1 ksi * -1, lin1 ksi * 1, lin2 ksi * -1, lin2 ksi * 1])
      else if elementOrder = "quadratic" then
        some ([quadL1 ksi * quadL1 eta, quadL1 ksi * quadL2 eta, quadL1 ksi * quadL3 eta,
               quadL2 ksi * quadL1 eta, quadL2 ksi * quadL2 eta, quadL2 ksi * quadL3 eta,
               quadL3 ksi * quadL1 eta, quadL3 ksi * quadL2 eta, quadL3 ksi * quadL3 eta],
              [quadDl1 ksi * quadL1 eta, quadDl1 ksi * quadL2 eta, quadDl1 ksi * quadL3 eta,
               quadDl2 ksi * quadL1 eta, quadDl2 ksi * quadL2 eta, quadDl2 ksi * quadL3 eta,
               quadDl3 ksi * quadL1 eta, quadDl3 ksi * quadL2 eta, quadDl3 ksi * quadL3 eta],
              [quadL1 ksi * quadDl1 eta, quadL1 ksi * quadDl2 eta, quadL1 ksi * quadDl3 eta,
               quadL2 ksi * quadDl1 eta, quadL2 ksi * quadDl2 eta, quadL2 ksi * quadDl3 eta,
               quadL3 ksi * quadDl1 eta, quadL3 ksi * quadDl2 eta, quadL3 ksi * quadDl3 eta])
      else some ([], [], [])
  else some ([], [], [])

/-- Embedding of numericalIntegration.getGaussPointsAndWeights; sqrt35 stands
for the value Math.sqrt(3/5) computed by the source. -/
def getGaussPointsAndWeights {F : Type} [LinearOrderedField F]
    (sqrt35 : F) (elementOrder : String) : List F × List F :=
  if elementOrder = "linear" then
    ([1 / 2], [1])
  else if elementOrder = "quadratic" then
    ([(1 - sqrt35) / 2, 1 / 2, (1 + sqrt35) / 2], [5 / 18, 8 / 18, 5 / 18])
  else ([], [])

/-- Embedding of meshGeneration.generateNodalNumbering.  The unsupported
branches (1D of either order, 2D linear) only log to the console in the
source and leave the nop array empty; they are modelled by the empty list.
The 2D quadratic branch fills, for 1-based element coordinates
(elementIndexX, elementIndexY) iterated x-outer/y-inner, the nine entries
of the element row from the source formula
totalNodesY * (2*elementIndexX + nodeIndex - 3) + 2*elementIndexY - 1 (+0,+1,+2);
the preliminary zero-fill of the source is overwritten entirely and is not
modelled.  totalNodesX is accepted and ignored exactly as in the source. -/
def generateNodalNumbering (meshDimension elementOrder : String)
    (numElementsX numElementsY totalNodesX totalNodesY : Nat) : List (List Nat) :=
  if meshDimension = "1D" then []
  else if meshDimension = "2D" then
    if elementOrder = "linear" then []
    else if elementOrder = "quadratic" then
      (List.range numElementsX).flatMap (fun eX =>
        (List.range numElementsY).map (fun eY =>
          (List.range 3).flatMap (fun k0 =>
            (List.range 3).map (fun r =>
              totalNodesY * (2 * (eX + 1) + (k0 + 1) - 3) + 2 * (eY + 1) - 1 + r))))
    else []
  else []

/-- Embedding of meshGeneration.findBoundaryElements.  The 1D branch and the
2D linear branch only log to the console; in both cases the four per-side
lists stay empty.  In the 2D quadratic branch the loops run x-outer/y-inner
over 0-based element coordinates with elementIndex = eX * numElementsY + eY,
pushing (elementIndex, side) pairs: side 0 bottom (eY = 0),
side 1 left (eX = 0), side 2 top (eY = numElementsY - 1),
side 3 right (eX = numElementsX - 1). -/
def findBoundaryElements (meshDimension elementOrder : String)
    (numElementsX numElementsY : Nat) : List (List (Nat × Nat)) :=
  if meshDimension = "2D" ∧ elementOrder = "quadratic" then
    [(List.range numElementsX).flatMap (fun eX =>
        (List.range numElementsY).filterMap (fun eY =>
          if eY = 0 then some (eX * numElementsY + eY, 0) else none)),
     (List.range numElementsX).flatMap (fun eX =>
        (List.range numElementsY).filterMap (fun eY =>
          if eX = 0 then some (eX * numElementsY + eY, 1) else none)),
     (List.range numElementsX).flatMap (fun eX =>
        (List.range numElementsY).filterMap (fun eY =>
          if eY = numElementsY - 1 then some (eX * numElementsY + eY, 2) else none)),
     (List.range numElementsX).flatMap (fun eX =>
        (List.range numElementsY).filterMap (fun eY =>
          if eX = numElementsX - 1 then some (eX * numElementsY + eY, 3) else none))]
  else [[], [], [], []]

/-- Result record of meshGeneration.generateMeshFromGeometry for the 2D
branch: node coordinate arrays, node counts per axis, nodal numbering and
boundary-element classification.  Field order:
nodesXCoordinates, nodesYCoordinates, totalNodesX, totalNodesY,
nodalNumbering, boundaryElements. -/
structure MeshData (F : Type) where
  nodesXCoordinates : List F
  nodesYCoordinates : List F
  totalNodesX : Nat
  totalNodesY : Nat
  nodalNumbering : List (List Nat)
  boundaryElements : List (List (Nat × Nat))

/-- Embedding of the 2D branch of meshGeneration.generateMeshFromGeometry
(meshGenerationScript.js lines 121-164).  The fill loops assign, for
0-based axis indices nodeIndexX and nodeIndexY, the flat index
nodeIndexX * totalNodesY + nodeIndexY the coordinates
(xStart + nodeIndexX * deltaX / 2, yStart + nodeIndexY * deltaY / 2) with
xStart = yStart = 0; the resulting array contents are reproduced here in
the same column-major order by flatMap over the x index. -/
def generateMeshFromGeometry2D {F : Type} [LinearOrderedField F]
    (elementOrder : String) (numElementsX numElementsY : Nat) (maxX maxY : F) :
    MeshData F :=
  let xStart : F := 0
  let yStart : F := 0
  let totalNodesX := 2 * numElementsX + 1
  let totalNodesY := 2 * numElementsY + 1
  let deltaX := (maxX - xStart) / (numElementsX : F)
  let deltaY := (maxY - yStart) / (numElementsY : F)
  ⟨(List.range totalNodesX).flatMap (fun i =>
      (List.range totalNodesY).map (fun _ => xStart + (i : F) * deltaX / 2)),
   (List.range totalNodesX).flatMap (fun _ =>
      (List.range totalNodesY).map (fun (j : Nat) => yStart + (j : F) * deltaY / 2)),
   totalNodesX, totalNodesY,
   generateNodalNumbering "2D" elementOrder numElementsX numElementsY totalNodesX totalNodesY,
   findBoundaryElements "2D" elementOrder numElementsX numElementsY⟩

/-- A boundary condition: the source stores the tagged arrays
("constantTemp", value) or ("convection", heatTransferCoeff, extTemp). -/
inductive BoundaryCondition (F : Type) where
  | constantTemp (value : F)
  | convection (heatTransferCoeff extTemp : F)

/-- Edge-local node table of imposeConstantTempBoundaryConditions for
linear elements; indexing with a key outside 0..3 yields undefined in the
source (modelled as none). -/
def boundarySidesLinear : Nat → Option (List Nat)
  | 0 => some [0, 2]
  | 1 => some [0, 1]
  | 2 => some [1, 3]
  | 3 => some [2, 3]
  | _ => none

/-- Edge-local node table of imposeConstantTempBoundaryConditions for
quadratic elements; indexing with a key outside 0..3 yields undefined in
the source (modelled as none). -/
def boundarySidesQuadratic : Nat → Option (List Nat)
  | 0 => some [0, 3, 6]
  | 1 => some [0, 1, 2]
  | 2 => some [2, 5, 8]
  | 3 => some [6, 7, 8]
  | _ => none

/-- Dispatch on elementOrder for the edge-local node table.  For an
elementOrder that is neither linear nor quadratic the source skips the
element entirely (no table is consulted, nothing is written); that no-op
is modelled by an empty node list. -/
def boundarySidesTable (elementOrder : String) (k : Nat) : Option (List Nat) :=
  if elementOrder = "linear" then boundarySidesLinear k
  else if elementOrder = "quadratic" then boundarySidesQuadratic k
  else some []

/-- Pointwise write jacobianMatrix[a][b] = v on a function-represented matrix. -/
def updSet {F : Type} [LinearOrderedField F]
    (J : Nat → Nat → F) (a b : Nat) (v : F) : Nat → Nat → F :=
  fun i j => if i = a ∧ j = b then v else J i j

/-- Pointwise accumulation jacobianMatrix[a][b] += v. -/
def updAdd {F : Type} [LinearOrderedField F]
    (J : Nat → Nat → F) (a b : Nat) (v : F) : Nat → Nat → F :=
  fun i j => if i = a ∧ j = b then J i j + v else J i j

/-- Pointwise write residualVector[a] = v. -/
def vecSet {F : Type} [LinearOrderedField F]
    (R : Nat → F) (a : Nat) (v : F) : Nat → F :=
  fun i => if i = a then v else R i

/-- Pointwise accumulation residualVector[a] += v. -/
def vecAdd {F : Type} [LinearOrderedField F]
    (R : Nat → F) (a : Nat) (v : F) : Nat → F :=
  fun i => if i = a then R i + v else R i

/-- The 0-based global node id nop[e][l] - 1 used throughout the source
(the nop array stores 1-based ids). -/
def localGlobalIndex (nop : List (List Nat)) (e l : Nat) : Nat :=
  (nop.getD e []).getD l 0 - 1

/-- Body of the per-node Dirichlet overwrite (thermalBoundaryConditionsScript.js
lines 50-58 and 67-76): set residualVector[g] to the condition value, zero
row g of the jacobian for every column index below n = residualVector.length,
then set the diagonal entry to one. -/
def applyConstantTempNode {F : Type} [LinearOrderedField F]
    (n : Nat) (tempValue : F) (s : (Nat → F) × (Nat → Nat → F)) (g : Nat) :
    (Nat → F) × (Nat → Nat → F) :=
  (vecSet s.1 g tempValue,
   updSet ((List.range n).foldl (fun J c => updSet J g c 0) s.2) g g 1)

/-- Body of the per-boundary-element forEach of
imposeConstantTempBoundaryConditions: look up the edge-local node table
with the boundary-condition key (throwing on an unknown key) and overwrite
the row of each of its nodes. -/
def constantTempElementStep {F : Type} [LinearOrderedField F]
    (elementOrder : String) (k : Nat) (nop : List (List Nat)) (n : Nat) (tempValue : F)
    (s : (Nat → F) × (Nat → Nat → F)) (elem : Nat × Nat) :
    Except String ((Nat → F) × (Nat → Nat → F)) :=
  match boundarySidesTable elementOrder k with
  | none => Except.error "TypeError: boundarySides[boundaryKey] is undefined"
  | some sides =>
    Except.ok (sides.foldl (fun s nodeIndex =>
      applyConstantTempNode n tempValue s (localGlobalIndex nop elem.1 nodeIndex)) s)

/-- Body of the per-key forEach of imposeConstantTempBoundaryConditions:
skip non-constantTemp conditions, look up this.boundaryElements with the
key itself (throwing if undefined) and process every listed element. -/
def constantTempKeyStep {F : Type} [LinearOrderedField F]
    (elementOrder : String) (boundaryElements : List (List (Nat × Nat)))
    (nop : List (List Nat)) (n : Nat)
    (s : (Nat → F) × (Nat → Nat → F)) (kv : Nat × BoundaryCondition F) :
    Except String ((Nat → F) × (Nat → Nat → F)) :=
  match kv.2 with
  | BoundaryCondition.constantTemp tempValue =>
    match boundaryElements[kv.1]? with
    | none => Except.error "TypeError: boundaryElements[boundaryKey] is undefined"
    | some elems => elems.foldlM (constantTempElementStep elementOrder kv.1 nop n tempValue) s
  | _ => Except.ok s

/-- Embedding of ThermalBoundaryConditions.imposeConstantTempBoundaryConditions.
The source iterates the keys of the boundaryConditions object (modelled as an
association list iterated in order), and for each constantTemp key indexes
this.boundaryElements and the edge-local node table with the key itself; a
key with no boundary-element list makes the source call .forEach on
undefined, which throws (modelled as Except.error).  n is
residualVector.length. -/
def imposeConstantTempBoundaryConditions {F : Type} [LinearOrderedField F]
    (meshDimension elementOrder : String)
    (boundaryConditions : List (Nat × BoundaryCondition F))
    (boundaryElements : List (List (Nat × Nat)))
    (nop : List (List Nat)) (n : Nat)
    (residualVector : Nat → F) (jacobianMatrix : Nat → Nat → F) :
    Except String ((Nat → F) × (Nat → Nat → F)) :=
  if meshDimension = "2D" then
    boundaryConditions.foldlM (constantTempKeyStep elementOrder boundaryElements nop n)
      (residualVector, jacobianMatrix)
  else Except.ok (residualVector, jacobianMatrix)

/-- The list of local node indices visited by the source loop
for (let l = firstNodeIndex; l < lastNodeIndex; l += nodeIncrement). -/
def strideRange (first lastIdx inc : Nat) : List Nat :=
  if h : 0 < inc ∧ first < lastIdx then first :: strideRange (first + inc) lastIdx inc
  else []
termination_by lastIdx - first
decreasing_by omega

/-- Edge-quadrature parameters (gaussPoint1, gaussPoint2, firstNodeIndex,
lastNodeIndex, nodeIncrement) chosen by the side tag in the linear branch
of imposeConvectionBoundaryConditions.  For a side outside 0..3 none of the
source branches runs, the loop bounds stay undefined and the node loop does
not execute; modelled by bounds (0,0) giving the empty loop. -/
def convectionEdgeParamsLinear {F : Type} [LinearOrderedField F]
    (gaussPoints : List F) (side : Nat) : F × F × Nat × Nat × Nat :=
  if side = 0 then (gaussPoints.getD 0 0, 0, 0, 2, 2)
  else if side = 1 then (0, gaussPoints.getD 0 0, 0, 1, 1)
  else if side = 2 then (gaussPoints.getD 0 0, 1, 1, 3, 2)
  else if side = 3 then (1, gaussPoints.getD 0 0, 2, 3, 1)
  else (0, 0, 0, 0, 1)

/-- Edge-quadrature parameters chosen by the side tag in the quadratic
branch of imposeConvectionBoundaryConditions, for Gauss point index
gaussPointIndex. -/
def convectionEdgeParamsQuadratic {F : Type} [LinearOrderedField F]
    (gaussPoints : List F) (gaussPointIndex side : Nat) : F × F × Nat × Nat × Nat :=
  if side = 0 then (gaussPoints.getD gaussPointIndex 0, 0, 0, 7, 3)
  else if side = 1 then (0, gaussPoints.getD gaussPointIndex 0, 0, 3, 1)
  else if side = 2 then (gaussPoints.getD gaussPointIndex 0, 1, 2, 9, 3)
  else if side = 3 then (1, gaussPoints.getD gaussPointIndex 0, 6, 9, 1)
  else (0, 0, 0, 0, 1)

/-- The common accumulation shape of the assembly loop and of the
convection boundary loop (solidHeatTransferScript.js lines 174-191,
thermalBoundaryConditionsScript.js lines 166-215 and 269-318): for every
local node index m of the list, residual[gv m] += rterm m, and for every
pair (m, m2), jacobian[gv m][gv m2] += jterm m m2. -/
def accumulateNodePairContributions {F : Type} [LinearOrderedField F]
    (L : List Nat) (gv : Nat → Nat) (rterm : Nat → F) (jterm : Nat → Nat → F)
    (s : (Nat → F) × (Nat → Nat → F)) : (Nat → F) × (Nat → Nat → F) :=
  L.foldl (fun s m =>
    (vecAdd s.1 (gv m) (rterm m),
     L.foldl (fun J m2 => updAdd J (gv m) (gv m2) (jterm m m2)) s.2)) s

/-- The interpolation sums of the isoparametric mapping: sum over the local
nodes of coordinate[nop[e][l] - 1] * factor[l], the common shape of
xCoordinates, ksiDerivX, etaDerivX, ksiDerivY and etaDerivY in the source. -/
def isoparametricSum {F : Type} [LinearOrderedField F]
    (coords : List F) (nop : List (List Nat)) (e numNodes : Nat)
    (factor : List F) : F :=
  ((List.range numNodes).map (fun l =>
    coords.getD (localGlobalIndex nop e l) 0 * factor.getD l 0)).sum

/-- One Gauss-point contribution of the convection (Robin) boundary
integral for element e with side tag side (thermalBoundaryConditionsScript.js
lines 145-215 for linear, 218-319 for quadratic): evaluate the basis at the
edge-degenerated natural coordinates, form the edge Jacobian factor
(ksiDerivX for horizontal sides 0 and 2, etaDerivY for vertical sides 1
and 3), and accumulate into the residual and the jacobian over the
edge-local node pairs.  The source computes the unused local xCoordinates
interpolation as well; being dead code it is not modelled.  The horizontal
or vertical branch is selected inside the node loop in the source with the
same outcome for every iteration; it is hoisted out here. -/
def convectionEdgeGaussUpdate {F : Type} [LinearOrderedField F]
    (meshDimension elementOrder : String)
    (nodesXCoordinates nodesYCoordinates : List F) (nop : List (List Nat))
    (convectionCoeff extTemp : F) (e side : Nat)
    (params : F × F × Nat × Nat × Nat) (w : F)
    (s : (Nat → F) × (Nat → Nat → F)) : (Nat → F) × (Nat → Nat → F) :=
  let gaussPoint1 := params.1
  let gaussPoint2 := params.2.1
  let firstNodeIndex := params.2.2.1
  let lastNodeIndex := params.2.2.2.1
  let nodeIncrement := params.2.2.2.2
  let bf := (getBasisFunctions meshDimension elementOrder gaussPoint1 (some gaussPoint2)).getD
    ([], [], [])
  let basisFunction := bf.1
  let numNodes := (nop.getD e []).length
  let ksiDerivX := isoparametricSum nodesXCoordinates nop e numNodes bf.2.1
  let etaDerivY := isoparametricSum nodesYCoordinates nop e numNodes bf.2.2
  let edgeNodes := strideRange firstNodeIndex lastNodeIndex nodeIncrement
  if side = 0 ∨ side = 2 then
    accumulateNodePairContributions edgeNodes (localGlobalIndex nop e)
      (fun m => -w * ksiDerivX * basisFunction.getD m 0 * convectionCoeff * extTemp)
      (fun m m2 => -w * ksiDerivX * basisFunction.getD m 0 * basisFunction.getD m2 0 *
        convectionCoeff) s
  else if side = 1 ∨ side = 3 then
    accumulateNodePairContributions edgeNodes (localGlobalIndex nop e)
      (fun m => -w * etaDerivY * basisFunction.getD m 0 * convectionCoeff * extTemp)
      (fun m m2 => -w * etaDerivY * basisFunction.getD m 0 * basisFunction.getD m2 0 *
        convectionCoeff) s
  else s

/-- Body of the per-boundary-element forEach of
imposeConvectionBoundaryConditions: the linear branch integrates with the
single Gauss point, the quadratic branch loops gaussPointIndex over 0, 1,
2; any other element order does nothing. -/
def convectionElementUpdate {F : Type} [LinearOrderedField F]
    (meshDimension elementOrder : String)
    (nodesXCoordinates nodesYCoordinates : List F) (nop : List (List Nat))
    (gaussPoints gaussWeights : List F) (convectionCoeff extTemp : F)
    (s : (Nat → F) × (Nat → Nat → F)) (elem : Nat × Nat) :
    (Nat → F) × (Nat → Nat → F) :=
  if elementOrder = "linear" then
    convectionEdgeGaussUpdate meshDimension elementOrder
      nodesXCoordinates nodesYCoordinates nop convectionCoeff extTemp
      elem.1 elem.2 (convectionEdgeParamsLinear gaussPoints elem.2)
      (gaussWeights.getD 0 0) s
  else if elementOrder = "quadratic" then
    (List.range 3).foldl (fun s gaussPointIndex =>
      convectionEdgeGaussUpdate meshDimension elementOrder
        nodesXCoordinates nodesYCoordinates nop convectionCoeff extTemp
        elem.1 elem.2
        (convectionEdgeParamsQuadratic gaussPoints gaussPointIndex elem.2)
        (gaussWeights.getD gaussPointIndex 0) s) s
  else s

/-- Body of the per-key forEach of imposeConvectionBoundaryConditions:
skip non-convection conditions, read the coefficient arrays and
this.boundaryElements at the key itself (throwing if the latter is
undefined) and process every listed element. -/
def convectionKeyStep {F : Type} [LinearOrderedField F]
    (meshDimension elementOrder : String)
    (boundaryElements : List (List (Nat × Nat))) (nop : List (List Nat))
    (gaussPoints gaussWeights : List F)
    (nodesXCoordinates nodesYCoordinates : List F)
    (convectionHeatTranfCoeff convectionExtTemp : Nat → F)
    (s : (Nat → F) × (Nat → Nat → F)) (kv : Nat × BoundaryCondition F) :
    Except String ((Nat → F) × (Nat → Nat → F)) :=
  match kv.2 with
  | BoundaryCondition.convection _ _ =>
    let convectionCoeff := convectionHeatTranfCoeff kv.1
    let extTemp := convectionExtTemp kv.1
    match boundaryElements[kv.1]? with
    | none => Except.error "TypeError: boundaryElements[boundaryKey] is undefined"
    | some elems =>
      Except.ok (elems.foldl
        (convectionElementUpdate meshDimension elementOrder
          nodesXCoordinates nodesYCoordinates nop gaussPoints gaussWeights
          convectionCoeff extTemp) s)
  | _ => Except.ok s

/-- Embedding of ThermalBoundaryConditions.imposeConvectionBoundaryConditions.
The source indexes this.boundaryElements with the boundary-condition key
itself (a key with no list throws, modelled as Except.error) and uses the
stored side tag of each (elementIndex, side) pair to pick the edge
parameters.  The linear branch uses the single Gauss point; the quadratic
branch loops gaussPointIndex over 0,1,2. -/
def imposeConvectionBoundaryConditions {F : Type} [LinearOrderedField F]
    (meshDimension elementOrder : String)
    (boundaryConditions : List (Nat × BoundaryCondition F))
    (boundaryElements : List (List (Nat × Nat)))
    (nop : List (List Nat))
    (residualVector : Nat → F) (jacobianMatrix : Nat → Nat → F)
    (gaussPoints gaussWeights : List F)
    (nodesXCoordinates nodesYCoordinates : List F)
    (convectionHeatTranfCoeff convectionExtTemp : Nat → F) :
    Except String ((Nat → F) × (Nat → Nat → F)) :=
  if meshDimension = "2D" then
    boundaryConditions.foldlM
      (convectionKeyStep meshDimension elementOrder boundaryElements nop
        gaussPoints gaussWeights nodesXCoordinates nodesYCoordinates
        convectionHeatTranfCoeff convectionExtTemp)
      (residualVector, jacobianMatrix)
  else Except.ok (residualVector, jacobianMatrix)

/-- The detJacobian value computed during assembly for element e at natural
coordinates (ksi, eta): the final value of the accumulation loop of
solidHeatTransferScript.js lines 144-159,
ksiDerivX * etaDerivY - etaDerivX * ksiDerivY with the interpolation sums
over the numNodes local nodes. -/
def detJacobianAt {F : Type} [LinearOrderedField F]
    (meshDimension elementOrder : String)
    (nodesXCoordinates nodesYCoordinates : List F)
    (nop : List (List Nat)) (numNodes e : Nat) (ksi eta : F) : F :=
  let bf := (getBasisFunctions meshDimension elementOrder ksi (some eta)).getD ([], [], [])
  isoparametricSum nodesXCoordinates nop e numNodes bf.2.1 *
      isoparametricSum nodesYCoordinates nop e numNodes bf.2.2 -
    isoparametricSum nodesXCoordinates nop e numNodes bf.2.2 *
      isoparametricSum nodesYCoordinates nop e numNodes bf.2.1

/-- One Gauss-point contribution of the element assembly
(solidHeatTransferScript.js lines 126-192): evaluate the basis at the Gauss
point, form the isoparametric mapping derivatives and detJacobian, convert
to physical derivatives through the inverse mapping, and accumulate the
residual (load) and jacobian (stiffness) contributions over all local node
pairs.  numNodes is taken from nop[0] as in source line 116.  The source
also interpolates the unused xCoordinates and yCoordinates; being dead
locals they are not modelled. -/
def assemblyGaussPointUpdate {F : Type} [LinearOrderedField F]
    (meshDimension elementOrder : String)
    (nodesXCoordinates nodesYCoordinates : List F)
    (nop : List (List Nat)) (e : Nat) (w1 w2 ksi eta : F)
    (s : (Nat → F) × (Nat → Nat → F)) : (Nat → F) × (Nat → Nat → F) :=
  let bf := (getBasisFunctions meshDimension elementOrder ksi (some eta)).getD ([], [], [])
  let basisFunction := bf.1
  let basisFunctionDerivKsi := bf.2.1
  let basisFunctionDerivEta := bf.2.2
  let numNodes := (nop.getD 0 []).length
  let ksiDerivX := isoparametricSum nodesXCoordinates nop e numNodes basisFunctionDerivKsi
  let etaDerivX := isoparametricSum nodesXCoordinates nop e numNodes basisFunctionDerivEta
  let ksiDerivY := isoparametricSum nodesYCoordinates nop e numNodes basisFunctionDerivKsi
  let etaDerivY := isoparametricSum nodesYCoordinates nop e numNodes basisFunctionDerivEta
  let detJacobian := detJacobianAt meshDimension elementOrder
    nodesXCoordinates nodesYCoordinates nop numNodes e ksi eta
  let basisFunctionDerivX := fun l =>
    (etaDerivY * basisFunctionDerivKsi.getD l 0 - ksiDerivY * basisFunctionDerivEta.getD l 0) /
      detJacobian
  let basisFunctionDerivY := fun l =>
    (ksiDerivX * basisFunctionDerivEta.getD l 0 - etaDerivX * basisFunctionDerivKsi.getD l 0) /
      detJacobian
  accumulateNodePairContributions (List.range numNodes) (localGlobalIndex nop e)
    (fun m => w1 * w2 * detJacobian * basisFunction.getD m 0)
    (fun m m2 => -w1 * w2 * detJacobian *
      (basisFunctionDerivX m * basisFunctionDerivX m2 +
        basisFunctionDerivY m * basisFunctionDerivY m2)) s

/-- The convectionHeatTranfCoeff array built by the extraction loop of
assembleSolidHeatTransferMat (solidHeatTransferScript.js lines 37-45),
read back at a key: set only for convection conditions. -/
def convectionHeatTranfCoeffOf {F : Type} [LinearOrderedField F]
    (boundaryConditions : List (Nat × BoundaryCondition F)) (k : Nat) : F :=
  (boundaryConditions.findSome? (fun kv =>
    if kv.1 = k then
      match kv.2 with
      | BoundaryCondition.convection h _ => some h
      | _ => none
    else none)).getD 0

/-- The convectionExtTemp array built by the same extraction loop, read
back at a key. -/
def convectionExtTempOf {F : Type} [LinearOrderedField F]
    (boundaryConditions : List (Nat × BoundaryCondition F)) (k : Nat) : F :=
  (boundaryConditions.findSome? (fun kv =>
    if kv.1 = k then
      match kv.2 with
      | BoundaryCondition.convection _ t => some t
      | _ => none
    else none)).getD 0

/-- The residual vector and jacobian matrix after the element-assembly loop
of assembleSolidHeatTransferMat (solidHeatTransferScript.js lines 89-194),
before any boundary-condition imposition: zero-initialised state folded
over every element and every pair of Gauss-point indices. -/
def assembledSystem {F : Type} [LinearOrderedField F]
    (sqrt35 : F) (elementOrder : String) (numElementsX numElementsY : Nat)
    (maxX maxY : F) : (Nat → F) × (Nat → Nat → F) :=
  let mesh := generateMeshFromGeometry2D elementOrder numElementsX numElementsY maxX maxY
  let gauss := getGaussPointsAndWeights sqrt35 elementOrder
  (List.range (numElementsX * numElementsY)).foldl (fun s e =>
    (List.range gauss.1.length).foldl (fun s i1 =>
      (List.range gauss.1.length).foldl (fun s i2 =>
        assemblyGaussPointUpdate "2D" elementOrder
          mesh.nodesXCoordinates mesh.nodesYCoordinates mesh.nodalNumbering e
          (gauss.2.getD i1 0) (gauss.2.getD i2 0)
          (gauss.1.getD i1 0) (gauss.1.getD i2 0) s) s) s)
    (fun _ => 0, fun _ _ => 0)

/-- The system produced by assembleSolidHeatTransferMat just before the
constantTemp (Dirichlet) imposition: element assembly followed by the
convection imposition (solidHeatTransferScript.js lines 206-216). -/
def preDirichletSystem {F : Type} [LinearOrderedField F]
    (sqrt35 : F) (elementOrder : String) (numElementsX numElementsY : Nat)
    (maxX maxY : F) (boundaryConditions : List (Nat × BoundaryCondition F)) :
    Except String ((Nat → F) × (Nat → Nat → F)) :=
  let mesh := generateMeshFromGeometry2D elementOrder numElementsX numElementsY maxX maxY
  let gauss := getGaussPointsAndWeights sqrt35 elementOrder
  let s := assembledSystem sqrt35 elementOrder numElementsX numElementsY maxX maxY
  imposeConvectionBoundaryConditions "2D" elementOrder boundaryConditions
    mesh.boundaryElements mesh.nodalNumbering s.1 s.2 gauss.1 gauss.2
    mesh.nodesXCoordinates mesh.nodesYCoordinates
    (convectionHeatTranfCoeffOf boundaryConditions) (convectionExtTempOf boundaryConditions)

/-- Full embedding of assembleSolidHeatTransferMat for a 2D mesh: assembly,
convection imposition, then constantTemp imposition
(solidHeatTransferScript.js lines 25-229). -/
def assembleSolidHeatTransferMat {F : Type} [LinearOrderedField F]
    (sqrt35 : F) (elementOrder : String) (numElementsX numElementsY : Nat)
    (maxX maxY : F) (boundaryConditions : List (Nat × BoundaryCondition F)) :
    Except String ((Nat → F) × (Nat → Nat → F)) :=
  let mesh := generateMeshFromGeometry2D elementOrder numElementsX numElementsY maxX maxY
  (preDirichletSystem sqrt35 elementOrder numElementsX numElementsY maxX maxY
      boundaryConditions).bind (fun s =>
    imposeConstantTempBoundaryConditions "2D" elementOrder boundaryConditions
      mesh.boundaryElements mesh.nodalNumbering (mesh.totalNodesX * mesh.totalNodesY)
      s.1 s.2)

/-- The list of 0-based global node ids that a constantTemp condition on
key k writes: for every element of boundaryElements[k], the nodes of the
edge-local table row selected by k itself. -/
def constantTempNodes (elementOrder : String) (nop : List (List Nat))
    (boundaryElements : List (List (Nat × Nat))) (k : Nat) : List Nat :=
  (boundaryElements.getD k []).flatMap (fun elem =>
    ((boundarySidesTable elementOrder k).getD []).map (fun nodeIndex =>
      localGlobalIndex nop elem.1 nodeIndex))

/-- All 0-based global node ids written by any constantTemp condition of a
boundary-condition list. -/
def allConstantTempNodes {F : Type} [LinearOrderedField F]
    (elementOrder : String) (nop : List (List Nat))
    (boundaryElements : List (List (Nat × Nat)))
    (boundaryConditions : List (Nat × BoundaryCondition F)) : List Nat :=
  boundaryConditions.flatMap (fun kv =>
    match kv.2 with
    | BoundaryCondition.constantTemp _ => constantTempNodes elementOrder nop boundaryElements kv.1
    | _ => [])

/-- The value held by residualVector[i] after the constantTemp imposition:
the last constantTemp condition in key-iteration order whose node set
contains i wins (later writes overwrite earlier ones). -/
def lastConstantTempWrite {F : Type} [LinearOrderedField F]
    (elementOrder : String) (nop : List (List Nat))
    (boundaryElements : List (List (Nat × Nat)))
    (boundaryConditions : List (Nat × BoundaryCondition F)) (i : Nat) : Option F :=
  boundaryConditions.foldl (fun acc kv =>
    match kv.2 with
    | BoundaryCondition.constantTemp v =>
      if i ∈ constantTempNodes elementOrder nop boundaryElements kv.1 then some v else acc
    | _ => acc) none

/-- JavaScript truthiness of the solverConfig field: null and the empty
string are falsy, a nonempty string is truthy. -/
def truthySolverConfig : Option String → Bool
  | none => false
  | some s => s ≠ ""

/-- A JavaScript object-or-null field: the FEAScriptModel constructor
initialises meshConfig and boundaryConditions to the empty object, which
is truthy; only null (or undefined) would be falsy. -/
inductive JSObjectField (α : Type) where
  | nullObj : JSObjectField α
  | obj (entries : List α) : JSObjectField α

/-- JavaScript truthiness of an object field: every object is truthy,
including the empty one; null is falsy. -/
def truthyObjectField {α : Type} : JSObjectField α → Bool
  | JSObjectField.nullObj => false
  | JSObjectField.obj _ => true

/-- State of a FEAScriptModel instance: solverConfig, meshConfig,
boundaryConditions, solverMethod (FEAScript.js lines 20-26). -/
structure FEAScriptModel (F : Type) where
  solverConfig : Option String
  meshConfig : JSObjectField (String × F)
  boundaryConditions : JSObjectField (Nat × BoundaryCondition F)
  solverMethod : String

/-- The FEAScriptModel constructor: solverConfig = null, meshConfig = empty
object, boundaryConditions = empty object, solverMethod = "lusolve". -/
def FEAScriptModelNew (F : Type) [LinearOrderedField F] : FEAScriptModel F :=
  ⟨none, JSObjectField.obj [], JSObjectField.obj [], "lusolve"⟩

/-- Embedding of FEAScriptModel.setSolverConfig. -/
def setSolverConfig {F : Type} (m : FEAScriptModel F) (s : String) : FEAScriptModel F :=
  ⟨some s, m.meshConfig, m.boundaryConditions, m.solverMethod⟩

/-- The configuration guard at the top of FEAScriptModel.solve
(FEAScript.js lines 44-47): the call throws the configuration error iff
one of the three fields is falsy. -/
def solveThrowsConfigError {F : Type} (m : FEAScriptModel F) : Bool :=
  !truthySolverConfig m.solverConfig ||
    !truthyObjectField m.meshConfig || !truthyObjectField m.boundaryConditions

/-- Concrete run of the constantTemp imposition on the 1-by-1 quadratic
mesh with conflicting values on the bottom (key 0, value 5) and left
(key 1, value 7) boundaries, which share the corner node 0. -/
def cornerConflictRun : Except String ((Nat → ℚ) × (Nat → Nat → ℚ)) :=
  imposeConstantTempBoundaryConditions "2D" "quadratic"
    [(0, BoundaryCondition.constantTemp 5), (1, BoundaryCondition.constantTemp 7)]
    (generateMeshFromGeometry2D "quadratic" 1 1 (1 : ℚ) 1).boundaryElements
    (generateMeshFromGeometry2D "quadratic" 1 1 (1 : ℚ) 1).nodalNumbering
    9 (fun _ => 0) (fun _ _ => 0)

/-- The state produced by cornerConflictRun. -/
def cornerConflictPair : (Nat → ℚ) × (Nat → Nat → ℚ) :=
  cornerConflictRun.toOption.getD (fun _ => 0, fun _ _ => 0)

/-- Concrete run of the constantTemp imposition on the 1-by-1 quadratic
mesh with a single condition, value 5 on the left boundary (key 1). -/
def leftDirichletRun : Except String ((Nat → ℚ) × (Nat → Nat → ℚ)) :=
  imposeConstantTempBoundaryConditions "2D" "quadratic"
    [(1, BoundaryCondition.constantTemp 5)]
    (generateMeshFromGeometry2D "quadratic" 1 1 (1 : ℚ) 1).boundaryElements
    (generateMeshFromGeometry2D "quadratic" 1 1 (1 : ℚ) 1).nodalNumbering
    9 (fun _ => 0) (fun _ _ => 0)

/-- The state produced by leftDirichletRun. -/
def leftDirichletPair : (Nat → ℚ) × (Nat → Nat → ℚ) :=
  leftDirichletRun.toOption.getD (fun _ => 0, fun _ _ => 0)

/-- The assembled system of the 1-by-1 quadratic unit-square mesh over the
rationals with the sqrt35 parameter instantiated at 0; used as the
concrete pre-Dirichlet state with no boundary conditions. -/
def unitAssembledPair : (Nat → ℚ) × (Nat → Nat → ℚ) :=
  assembledSystem 0 "quadratic" 1 1 1 1

/-- Replace the stored side tag of every boundary-element pair, keeping the
element indices; used to state that the constantTemp imposition never reads
the stored side tags. -/
def mapBoundarySideTags (f : Nat × Nat → Nat)
    (boundaryElements : List (List (Nat × Nat))) : List (List (Nat × Nat)) :=
  boundaryElements.map (fun l => l.map (fun p => (p.1, f p)))

/-- Length of a rectangular flatMap-of-range construction. -/
theorem length_flatMap_range_map {α : Type} (n m : Nat) (f : Nat → Nat → α) :
    ((List.range n).flatMap (fun a => (List.range m).map (f a))).length = n * m := by
  induction n with
  | zero => simp
  | succ k ih =>
    rw [List.range_succ, List.flatMap_append]
    simp [ih, Nat.succ_mul]

/-- Indexing a rectangular flatMap-of-range construction at a flat index
decomposed as i * m + j. -/
theorem getElem?_flatMap_range_map {α : Type} (n m : Nat) (f : Nat → Nat → α) (i j : Nat)
    (hi : i < n) (hj : j < m) :
    ((List.range n).flatMap (fun a => (List.range m).map (f a)))[i * m + j]? = some (f i j) := by
  induction n with
  | zero => omega
  | succ k ih =>
    rw [List.range_succ, List.flatMap_append]
    rcases Nat.lt_or_ge i k with h | h
    · rw [List.getElem?_append_left]
      · exact ih h
      · rw [length_flatMap_range_map]
        calc i * m + j < i * m + m := by omega
          _ = (i + 1) * m := by ring
          _ ≤ k * m := Nat.mul_le_mul_right m (by omega)
    · have hik : i = k := by omega
      subst hik
      rw [List.getElem?_append_right (by rw [length_flatMap_range_map]; omega)]
      rw [length_flatMap_range_map]
      simp only [Nat.add_sub_cancel_left, List.flatMap_cons, List.flatMap_nil, List.append_nil]
      rw [List.getElem?_map, List.getElem?_range hj]
      rfl

/-- The 2D quadratic branch of generateNodalNumbering, unfolded. -/
theorem generateNodalNumbering_2D_quadratic (nex ney tX tY : Nat) :
    generateNodalNumbering "2D" "quadratic" nex ney tX tY =
      (List.range nex).flatMap (fun eX =>
        (List.range ney).map (fun eY =>
          (List.range 3).flatMap (fun k0 =>
            (List.range 3).map (fun r =>
              tY * (2 * (eX + 1) + (k0 + 1) - 3) + 2 * (eY + 1) - 1 + r)))) := rfl

/-- C3: in the 2D quadratic nodal numbering, element (i, j) in 1-based
element coordinates (outer loop over x, inner over y) occupies row
(i-1) * numElementsY + (j-1) of the nop array; the row has nine entries and
for k = 1, 2, 3 the entry at local position 3(k-1) is
totalNodesY * (2i + k - 3) + 2j - 1, with the next two local positions
holding that base value plus one and plus two. -/
theorem generateNodalNumbering_element_row (nex ney tX tY i j k : Nat)
    (hi1 : 1 ≤ i) (hi2 : i ≤ nex) (hj1 : 1 ≤ j) (hj2 : j ≤ ney)
    (hk1 : 1 ≤ k) (hk2 : k ≤ 3) :
    (generateNodalNumbering "2D" "quadratic" nex ney tX tY).length = nex * ney ∧
    ((generateNodalNumbering "2D" "quadratic" nex ney tX tY).getD
        ((i - 1) * ney + (j - 1)) []).length = 9 ∧
    ((generateNodalNumbering "2D" "quadratic" nex ney tX tY).getD
        ((i - 1) * ney + (j - 1)) [])[3 * (k - 1)]? =
      some (tY * (2 * i + k - 3) + 2 * j - 1) ∧
    ((generateNodalNumbering "2D" "quadratic" nex ney tX tY).getD
        ((i - 1) * ney + (j - 1)) [])[3 * (k - 1) + 1]? =
      some (tY * (2 * i + k - 3) + 2 * j - 1 + 1) ∧
    ((generateNodalNumbering "2D" "quadratic" nex ney tX tY).getD
        ((i - 1) * ney + (j - 1)) [])[3 * (k - 1) + 2]? =
      some (tY * (2 * i + k - 3) + 2 * j - 1 + 2) := by
  rw [generateNodalNumbering_2D_quadratic]
  have hrow := getElem?_flatMap_range_map nex ney
    (fun eX eY => (List.range 3).flatMap (fun k0 =>
      (List.range 3).map (fun r =>
        tY * (2 * (eX + 1) + (k0 + 1) - 3) + 2 * (eY + 1) - 1 + r)))
    (i - 1) (j - 1) (by omega) (by omega)
  have hgetD : ((List.range nex).flatMap (fun eX =>
      (List.range ney).map (fun eY =>
        (List.range 3).flatMap (fun k0 =>
          (List.range 3).map (fun r =>
            tY * (2 * (eX + 1) + (k0 + 1) - 3) + 2 * (eY + 1) - 1 + r))))).getD
      ((i - 1) * ney + (j - 1)) [] =
      (List.range 3).flatMap (fun k0 =>
        (List.range 3).map (fun r =>
          tY * (2 * ((i - 1) + 1) + (k0 + 1) - 3) + 2 * ((j - 1) + 1) - 1 + r)) := by
    rw [List.getD_eq_getElem?_getD, hrow]
    rfl
  have e1 : i - 1 + 1 = i := by omega
  have e2 : j - 1 + 1 = j := by omega
  have e3 : k - 1 + 1 = k := by omega
  refine ⟨length_flatMap_range_map nex ney _, ?_, ?_, ?_, ?_⟩
  · rw [hgetD]
    exact length_flatMap_range_map 3 3 _
  · rw [hgetD]
    have hidx : 3 * (k - 1) = (k - 1) * 3 + 0 := by omega
    rw [hidx, getElem?_flatMap_range_map 3 3 _ (k - 1) 0 (by omega) (by omega)]
    rw [e1, e2, e3]
    rfl
  · rw [hgetD]
    have hidx : 3 * (k - 1) + 1 = (k - 1) * 3 + 1 := by omega
    rw [hidx, getElem?_flatMap_range_map 3 3 _ (k - 1) 1 (by omega) (by omega)]
    rw [e1, e2, e3]
  · rw [hgetD]
    have hidx : 3 * (k - 1) + 2 = (k - 1) * 3 + 2 := by omega
    rw [hidx, getElem?_flatMap_range_map 3 3 _ (k - 1) 2 (by omega) (by omega)]
    rw [e1, e2, e3]

/-- Witness for generateNodalNumbering_element_row at a concrete mesh:
2 by 2 elements, totalNodesY = 5, element (2, 1), node column k = 3. -/
theorem generateNodalNumbering_element_row_witness :
    (generateNodalNumbering "2D" "quadratic" 2 2 5 5).length = 2 * 2 ∧
    ((generateNodalNumbering "2D" "quadratic" 2 2 5 5).getD ((2 - 1) * 2 + (1 - 1)) []).length = 9 ∧
    ((generateNodalNumbering "2D" "quadratic" 2 2 5 5).getD
        ((2 - 1) * 2 + (1 - 1)) [])[3 * (3 - 1)]? = some (5 * (2 * 2 + 3 - 3) + 2 * 1 - 1) ∧
    ((generateNodalNumbering "2D" "quadratic" 2 2 5 5).getD
        ((2 - 1) * 2 + (1 - 1)) [])[3 * (3 - 1) + 1]? = some (5 * (2 * 2 + 3 - 3) + 2 * 1 - 1 + 1) ∧
    ((generateNodalNumbering "2D" "quadratic" 2 2 5 5).getD
        ((2 - 1) * 2 + (1 - 1)) [])[3 * (3 - 1) + 2]? = some (5 * (2 * 2 + 3 - 3) + 2 * 1 - 1 + 2) :=
  generateNodalNumbering_element_row 2 2 5 5 2 1 3 (by decide) (by decide) (by decide)
    (by decide) (by decide) (by decide)

/-- Indexing the x-coordinate array of the generated 2D mesh. -/
theorem nodesXCoordinates_getElem {F : Type} [LinearOrderedField F]
    (elementOrder : String) (nex ney : Nat) (maxX maxY : F) (i j : Nat)
    (hi : i < 2 * nex + 1) (hj : j < 2 * ney + 1) :
    ((generateMeshFromGeometry2D elementOrder nex ney maxX maxY).nodesXCoordinates)[i * (2 * ney + 1) + j]? =
      some ((i : F) * (maxX / (nex : F)) / 2) := by
  show ((List.range (2 * nex + 1)).flatMap (fun a =>
      (List.range (2 * ney + 1)).map
        ((fun a _ => (0 : F) + (a : F) * ((maxX - 0) / (nex : F)) / 2) a)))[i * (2 * ney + 1) + j]? = _
  rw [getElem?_flatMap_range_map (2 * nex + 1) (2 * ney + 1) _ i j hi hj]
  congr 1
  ring

/-- Indexing the y-coordinate array of the generated 2D mesh. -/
theorem nodesYCoordinates_getElem {F : Type} [LinearOrderedField F]
    (elementOrder : String) (nex ney : Nat) (maxX maxY : F) (i j : Nat)
    (hi : i < 2 * nex + 1) (hj : j < 2 * ney + 1) :
    ((generateMeshFromGeometry2D elementOrder nex ney maxX maxY).nodesYCoordinates)[i * (2 * ney + 1) + j]? =
      some ((j : F) * (maxY / (ney : F)) / 2) := by
  have hY : (generateMeshFromGeometry2D elementOrder nex ney maxX maxY).nodesYCoordinates =
      (List.range (2 * nex + 1)).flatMap (fun _ =>
        (List.range (2 * ney + 1)).map
          (fun (b : Nat) => (0 : F) + (b : F) * ((maxY - 0) / (ney : F)) / 2)) := rfl
  rw [hY, getElem?_flatMap_range_map (2 * nex + 1) (2 * ney + 1) _ i j hi hj]
  congr 1
  ring

/-- C9: the structured 2D generator places global node id
i * totalNodesY + j at coordinates (i * deltaX / 2, j * deltaY / 2) with
deltaX = maxX / numElementsX and deltaY = maxY / numElementsY; and the
1-by-1-element mesh with maxX = maxY = 1 has exactly 9 nodes whose corner
ids 0, 2, 6, 8 sit at (0,0), (0,1), (1,0), (1,1). -/
theorem generateMeshFromGeometry2D_nodePlacement {F : Type} [LinearOrderedField F]
    (elementOrder : String) (nex ney : Nat) (maxX maxY : F) (i j : Nat)
    (hi : i < 2 * nex + 1) (hj : j < 2 * ney + 1) :
    (((generateMeshFromGeometry2D elementOrder nex ney maxX maxY).nodesXCoordinates)[i * (2 * ney + 1) + j]? =
        some ((i : F) * (maxX / (nex : F)) / 2) ∧
      ((generateMeshFromGeometry2D elementOrder nex ney maxX maxY).nodesYCoordinates)[i * (2 * ney + 1) + j]? =
        some ((j : F) * (maxY / (ney : F)) / 2)) ∧
    ((generateMeshFromGeometry2D "quadratic" 1 1 (1 : F) 1).nodesXCoordinates).length = 9 ∧
    ((generateMeshFromGeometry2D "quadratic" 1 1 (1 : F) 1).nodesYCoordinates).length = 9 ∧
    ((generateMeshFromGeometry2D "quadratic" 1 1 (1 : F) 1).nodesXCoordinates)[0]? = some 0 ∧
    ((generateMeshFromGeometry2D "quadratic" 1 1 (1 : F) 1).nodesYCoordinates)[0]? = some 0 ∧
    ((generateMeshFromGeometry2D "quadratic" 1 1 (1 : F) 1).nodesXCoordinates)[2]? = some 0 ∧
    ((generateMeshFromGeometry2D "quadratic" 1 1 (1 : F) 1).nodesYCoordinates)[2]? = some 1 ∧
    ((generateMeshFromGeometry2D "quadratic" 1 1 (1 : F) 1).nodesXCoordinates)[6]? = some 1 ∧
    ((generateMeshFromGeometry2D "quadratic" 1 1 (1 : F) 1).nodesYCoordinates)[6]? = some 0 ∧
    ((generateMeshFromGeometry2D "quadratic" 1 1 (1 : F) 1).nodesXCoordinates)[8]? = some 1 ∧
    ((generateMeshFromGeometry2D "quadratic" 1 1 (1 : F) 1).nodesYCoordinates)[8]? = some 1 := by
  have hx := nodesXCoordinates_getElem (F := F) elementOrder nex ney maxX maxY i j hi hj
  have hy := nodesYCoordinates_getElem (F := F) elementOrder nex ney maxX maxY i j hi hj
  have hc : ∀ a b : Nat, a < 3 → b < 3 →
      ((generateMeshFromGeometry2D "quadratic" 1 1 (1 : F) 1).nodesXCoordinates)[a * 3 + b]? =
          some ((a : F) * 1 / 2) ∧
        ((generateMeshFromGeometry2D "quadratic" 1 1 (1 : F) 1).nodesYCoordinates)[a * 3 + b]? =
          some ((b : F) * 1 / 2) := by
    intro a b ha hb
    constructor
    · have := nodesXCoordinates_getElem (F := F) "quadratic" 1 1 1 1 a b (by omega) (by omega)
      simpa using this
    · have := nodesYCoordinates_getElem (F := F) "quadratic" 1 1 1 1 a b (by omega) (by omega)
      simpa using this
  refine ⟨⟨hx, hy⟩, ?_, ?_, ?_, ?_, ?_, ?_, ?_, ?_, ?_, ?_⟩
  · show ((List.range 3).flatMap (fun a =>
        (List.range 3).map
          ((fun (a _ : Nat) => (0 : F) + (a : F) * (((1 : F) - 0) / ((1 : Nat) : F)) / 2) a))).length = 9
    exact length_flatMap_range_map 3 3 _
  · show ((List.range 3).flatMap (fun a =>
        (List.range 3).map
          ((fun (_ b : Nat) => (0 : F) + (b : F) * (((1 : F) - 0) / ((1 : Nat) : F)) / 2) a))).length = 9
    exact length_flatMap_range_map 3 3 _
  · have := (hc 0 0 (by omega) (by omega)).1
    simpa using this
  · have := (hc 0 0 (by omega) (by omega)).2
    simpa using this
  · have := (hc 0 2 (by omega) (by omega)).1
    simpa using this
  · have := (hc 0 2 (by omega) (by omega)).2
    norm_num at this ⊢
    exact this
  · have := (hc 2 0 (by omega) (by omega)).1
    norm_num at this ⊢
    exact this
  · have := (hc 2 0 (by omega) (by omega)).2
    simpa using this
  · have := (hc 2 2 (by omega) (by omega)).1
    norm_num at this ⊢
    exact this
  · have := (hc 2 2 (by omega) (by omega)).2
    norm_num at this ⊢
    exact this

/-- Witness for generateMeshFromGeometry2D_nodePlacement: the 2 by 1 mesh
with maxX = 3, maxY = 2 over the rationals, node (3, 1). -/
theorem generateMeshFromGeometry2D_nodePlacement_witness :
    (((generateMeshFromGeometry2D "quadratic" 2 1 (3 : ℚ) 2).nodesXCoordinates)[3 * (2 * 1 + 1) + 1]? =
        some (((3 : Nat) : ℚ) * ((3 : ℚ) / ((2 : Nat) : ℚ)) / 2) ∧
      ((generateMeshFromGeometry2D "quadratic" 2 1 (3 : ℚ) 2).nodesYCoordinates)[3 * (2 * 1 + 1) + 1]? =
        some (((1 : Nat) : ℚ) * ((2 : ℚ) / ((1 : Nat) : ℚ)) / 2)) ∧
    ((generateMeshFromGeometry2D "quadratic" 1 1 (1 : ℚ) 1).nodesXCoordinates).length = 9 ∧
    ((generateMeshFromGeometry2D "quadratic" 1 1 (1 : ℚ) 1).nodesYCoordinates).length = 9 ∧
    ((generateMeshFromGeometry2D "quadratic" 1 1 (1 : ℚ) 1).nodesXCoordinates)[0]? = some 0 ∧
    ((generateMeshFromGeometry2D "quadratic" 1 1 (1 : ℚ) 1).nodesYCoordinates)[0]? = some 0 ∧
    ((generateMeshFromGeometry2D "quadratic" 1 1 (1 : ℚ) 1).nodesXCoordinates)[2]? = some 0 ∧
    ((generateMeshFromGeometry2D "quadratic" 1 1 (1 : ℚ) 1).nodesYCoordinates)[2]? = some 1 ∧
    ((generateMeshFromGeometry2D "quadratic" 1 1 (1 : ℚ) 1).nodesXCoordinates)[6]? = some 1 ∧
    ((generateMeshFromGeometry2D "quadratic" 1 1 (1 : ℚ) 1).nodesYCoordinates)[6]? = some 0 ∧
    ((generateMeshFromGeometry2D "quadratic" 1 1 (1 : ℚ) 1).nodesXCoordinates)[8]? = some 1 ∧
    ((generateMeshFromGeometry2D "quadratic" 1 1 (1 : ℚ) 1).nodesYCoordinates)[8]? = some 1 :=
  generateMeshFromGeometry2D_nodePlacement "quadratic" 2 1 (3 : ℚ) 2 3 1 (by decide) (by decide)

/-- C4 (code-bug evidence): the unsupported mesh configurations do not
raise any error; the source only logs to the console and silently returns
empty structures: an empty nop array for 1D meshes and for 2D linear-order
nodal numbering, and four empty boundary lists for 1D boundary-element
finding and 2D linear boundary-element finding. -/
theorem unsupportedConfig_silently_returns_empty :
    generateNodalNumbering "1D" "linear" 2 1 5 0 = [] ∧
    generateNodalNumbering "1D" "quadratic" 2 1 5 0 = [] ∧
    generateNodalNumbering "2D" "linear" 2 2 5 5 = [] ∧
    findBoundaryElements "1D" "quadratic" 2 1 = [[], [], [], []] ∧
    findBoundaryElements "2D" "linear" 2 2 = [[], [], [], []] :=
  ⟨rfl, rfl, rfl, rfl, rfl⟩

/-- C5 (code-bug evidence): a freshly constructed model given only a
solver config, with mesh config and boundary conditions never set, passes
the solve() configuration guard without throwing, because the constructor
defaults for meshConfig and boundaryConditions are empty objects, which
are truthy in JavaScript; the guard only ever detects a missing solver
config, as the second conjunct shows. -/
theorem solveGuard_misses_unset_mesh_and_boundary :
    solveThrowsConfigError (setSolverConfig (FEAScriptModelNew ℚ) "solidHeatTransferScript") =
      false ∧
    solveThrowsConfigError (FEAScriptModelNew ℚ) = true :=
  ⟨rfl, rfl⟩

/-- C7: for every natural coordinate pair in the unit square and each of
the four supported dimension/order configurations, the basis-function
values returned by getBasisFunctions sum to one (partition of unity). -/
theorem getBasisFunctions_partition_of_unity {F : Type} [LinearOrderedField F]
    (ksi eta : F) (hk0 : 0 ≤ ksi) (hk1 : ksi ≤ 1) (he0 : 0 ≤ eta) (he1 : eta ≤ 1) :
    (getBasisFunctions "1D" "linear" ksi none).map (fun t => t.1.sum) = some 1 ∧
    (getBasisFunctions "1D" "quadratic" ksi none).map (fun t => t.1.sum) = some 1 ∧
    (getBasisFunctions "2D" "linear" ksi (some eta)).map (fun t => t.1.sum) = some 1 ∧
    (getBasisFunctions "2D" "quadratic" ksi (some eta)).map (fun t => t.1.sum) = some 1 := by
  refine ⟨?_, ?_, ?_, ?_⟩ <;>
    · simp only [getBasisFunctions, lin1, lin2, quadL1, quadL2, quadL3, quadDl1, quadDl2,
        quadDl3, String.reduceEq, reduceIte, Option.map_some', List.sum_cons, List.sum_nil,
        Option.some.injEq]
      ring

/-- Witness for getBasisFunctions_partition_of_unity at ksi = 1/2,
eta = 1/3 over the rationals. -/
theorem getBasisFunctions_partition_of_unity_witness :
    (getBasisFunctions "1D" "linear" (1 / 2 : ℚ) none).map (fun t => t.1.sum) = some 1 ∧
    (getBasisFunctions "2D" "quadratic" (1 / 2 : ℚ) (some (1 / 3))).map (fun t => t.1.sum) =
      some 1 :=
  (fun h => ⟨h.1, h.2.2.2⟩)
    (getBasisFunctions_partition_of_unity (1 / 2 : ℚ) (1 / 3) (by norm_num) (by norm_num)
      (by norm_num) (by norm_num))

/-- C8: getGaussPointsAndWeights returns for linear order the 1-point rule
with point 0.5 and weight 1, and for quadratic order the 3-point rule with
points (1 - sqrt(3/5))/2, 0.5, (1 + sqrt(3/5))/2 and weights 5/18, 8/18,
5/18, whose weights sum to one; stated over the reals with the source
value Math.sqrt(3/5) = Real.sqrt (3/5). -/
theorem getGaussPointsAndWeights_rules :
    getGaussPointsAndWeights (Real.sqrt (3 / 5)) "linear" = ([1 / 2], [1]) ∧
    getGaussPointsAndWeights (Real.sqrt (3 / 5)) "quadratic" =
      ([(1 - Real.sqrt (3 / 5)) / 2, 1 / 2, (1 + Real.sqrt (3 / 5)) / 2],
        [5 / 18, 8 / 18, 5 / 18]) ∧
    (getGaussPointsAndWeights (Real.sqrt (3 / 5)) "quadratic").2.sum = 1 := by
  refine ⟨rfl, rfl, ?_⟩
  show ([(5 : ℝ) / 18, 8 / 18, 5 / 18]).sum = 1
  norm_num

/-- Zeroing loop of the Dirichlet row overwrite: after the fold, entry
(i, j) is zero iff i is the written row and j is below n. -/
theorem foldl_updSet_row {F : Type} [LinearOrderedField F]
    (n g : Nat) (J : Nat → Nat → F) (i j : Nat) :
    ((List.range n).foldl (fun J c => updSet J g c 0) J) i j =
      if i = g ∧ j < n then 0 else J i j := by
  induction n with
  | zero => simp
  | succ m ih =>
    rw [List.range_succ, List.foldl_append]
    simp only [List.foldl_cons, List.foldl_nil, updSet]
    rw [ih]
    by_cases h1 : i = g
    · by_cases h2 : j = m
      · simp [h1, h2]
      · by_cases h3 : j < m
        · simp [h1, h2, h3, Nat.lt_succ_of_lt h3]
        · have : ¬ j < m + 1 := by omega
          simp [h1, h2, h3, this]
    · simp [h1]

/-- Residual component of the per-node Dirichlet overwrite. -/
theorem applyConstantTempNode_fst {F : Type} [LinearOrderedField F]
    (n : Nat) (v : F) (s : (Nat → F) × (Nat → Nat → F)) (g i : Nat) :
    (applyConstantTempNode n v s g).1 i = if i = g then v else s.1 i := rfl

/-- Jacobian component of the per-node Dirichlet overwrite: the touched
row has diagonal one, zeros below column n, and keeps the old entries at
columns at or above n. -/
theorem applyConstantTempNode_snd {F : Type} [LinearOrderedField F]
    (n : Nat) (v : F) (s : (Nat → F) × (Nat → Nat → F)) (g i j : Nat) :
    (applyConstantTempNode n v s g).2 i j =
      if i = g then (if j = g then 1 else if j < n then 0 else s.2 i j) else s.2 i j := by
  show updSet ((List.range n).foldl (fun J c => updSet J g c 0) s.2) g g 1 i j = _
  rw [updSet, foldl_updSet_row]
  by_cases h1 : i = g
  · by_cases h2 : j = g
    · simp [h1, h2]
    · by_cases h3 : j < n <;> simp [h1, h2, h3]
  · simp [h1]

/-- Residual component after writing a whole list of global node ids with
the same value. -/
theorem applyNodesList_fst {F : Type} [LinearOrderedField F]
    (n : Nat) (v : F) (gs : List Nat) (s : (Nat → F) × (Nat → Nat → F)) (i : Nat) :
    (gs.foldl (fun s g => applyConstantTempNode n v s g) s).1 i =
      if i ∈ gs then v else s.1 i := by
  induction gs generalizing s with
  | nil => simp
  | cons g gs ih =>
    rw [List.foldl_cons, ih]
    by_cases hin : i ∈ gs
    · simp [hin]
    · rw [applyConstantTempNode_fst]
      by_cases hg : i = g <;> simp [hin, hg]

/-- Jacobian component after writing a whole list of global node ids:
every touched row is clean, every other row keeps its old entries. -/
theorem applyNodesList_snd {F : Type} [LinearOrderedField F]
    (n : Nat) (v : F) (gs : List Nat) (s : (Nat → F) × (Nat → Nat → F)) (i j : Nat) :
    (gs.foldl (fun s g => applyConstantTempNode n v s g) s).2 i j =
      if i ∈ gs then (if j = i then 1 else if j < n then 0 else s.2 i j)
      else s.2 i j := by
  induction gs generalizing s with
  | nil => simp
  | cons g gs ih =>
    rw [List.foldl_cons, ih]
    by_cases hin : i ∈ gs
    · simp only [hin, if_true, List.mem_cons, or_true]
      by_cases h2 : j = i
      · simp [h2]
      · by_cases h3 : j < n
        · simp [h2, h3]
        · rw [applyConstantTempNode_snd]
          by_cases hg : i = g
          · have hjg : ¬ j = g := by rw [hg] at h2; exact h2
            simp [h2, h3, hg, hjg]
          · simp [h2, h3, hg]
    · rw [applyConstantTempNode_snd]
      by_cases hg : i = g
      · subst hg
        simp [hin]
      · simp [hin, hg]

/-- foldlM over the empty list in the Except monad. -/
theorem foldlM_except_nil {α β : Type} (f : α → β → Except String α) (s : α) :
    List.foldlM f s [] = Except.ok s := rfl

/-- One step of foldlM in the Except monad. -/
theorem foldlM_except_cons {α β : Type} (f : α → β → Except String α) (s : α)
    (b : β) (l : List β) :
    List.foldlM f s (b :: l) = f s b >>= fun s2 => List.foldlM f s2 l := rfl

/-- Processing the element list of one constantTemp key whose edge-local
table row exists never throws, and equals the pure fold that writes the
flattened list of global node ids of that key. -/
theorem constantTempElems_run {F : Type} [LinearOrderedField F]
    (eo : String) (k : Nat) (nop : List (List Nat)) (n : Nat) (v : F)
    (sides : List Nat) (htab : boundarySidesTable eo k = some sides)
    (elems : List (Nat × Nat)) (s : (Nat → F) × (Nat → Nat → F)) :
    elems.foldlM (constantTempElementStep eo k nop n v) s =
      Except.ok ((elems.flatMap (fun elem =>
          sides.map (fun nodeIndex => localGlobalIndex nop elem.1 nodeIndex))).foldl
        (fun s g => applyConstantTempNode n v s g) s) := by
  induction elems generalizing s with
  | nil => rfl
  | cons e es ih =>
    rw [foldlM_except_cons]
    have hstep : constantTempElementStep eo k nop n v s e =
        Except.ok (sides.foldl (fun s nodeIndex =>
          applyConstantTempNode n v s (localGlobalIndex nop e.1 nodeIndex)) s) := by
      simp [constantTempElementStep, htab]
    rw [hstep]
    show es.foldlM (constantTempElementStep eo k nop n v) _ = _
    rw [ih]
    rw [List.flatMap_cons, List.foldl_append, List.foldl_map]

/-- The list of global ids written by a constantTemp key, rewritten from
the getD-based definition under known lookups. -/
theorem constantTempNodes_eq
    (eo : String) (nop : List (List Nat)) (BE : List (List (Nat × Nat)))
    (k : Nat) (elems : List (Nat × Nat)) (sides : List Nat)
    (hBE : BE[k]? = some elems) (htab : boundarySidesTable eo k = some sides) :
    constantTempNodes eo nop BE k =
      elems.flatMap (fun elem =>
        sides.map (fun nodeIndex => localGlobalIndex nop elem.1 nodeIndex)) := by
  simp [constantTempNodes, List.getD_eq_getElem?_getD, hBE, htab]

/-- Shifting the accumulator of the last-write fold: the fold started at
acc returns the last write if one exists and acc otherwise. -/
theorem lastConstantTempWrite_shift {F : Type} [LinearOrderedField F]
    (eo : String) (nop : List (List Nat)) (BE : List (List (Nat × Nat)))
    (i : Nat) (bc : List (Nat × BoundaryCondition F)) (acc : Option F) :
    bc.foldl (fun acc kv =>
      match kv.2 with
      | BoundaryCondition.constantTemp v =>
        if i ∈ constantTempNodes eo nop BE kv.1 then some v else acc
      | _ => acc) acc =
    (lastConstantTempWrite eo nop BE bc i).elim acc some := by
  induction bc generalizing acc with
  | nil => rfl
  | cons kv bc ih =>
    rw [List.foldl_cons, ih]
    have hcons : lastConstantTempWrite eo nop BE (kv :: bc) i =
        (lastConstantTempWrite eo nop BE bc i).elim
          (match kv.2 with
            | BoundaryCondition.constantTemp v =>
              if i ∈ constantTempNodes eo nop BE kv.1 then some v else none
            | _ => none) some := by
      show bc.foldl _ _ = _
      rw [ih]
    rw [hcons]
    cases hlw : lastConstantTempWrite eo nop BE bc i with
    | some w => rfl
    | none =>
      rcases kv with ⟨k, cond⟩
      cases cond with
      | constantTemp v =>
        by_cases hm : i ∈ constantTempNodes eo nop BE k <;> simp [hm]
      | convection hc tc => rfl

/-- Every value reported by the last-write fold comes from some
constantTemp condition whose node set contains the node. -/
theorem lastConstantTempWrite_provenance {F : Type} [LinearOrderedField F]
    (eo : String) (nop : List (List Nat)) (BE : List (List (Nat × Nat)))
    (i : Nat) (bc : List (Nat × BoundaryCondition F)) (w : F)
    (h : lastConstantTempWrite eo nop BE bc i = some w) :
    ∃ k, (k, BoundaryCondition.constantTemp w) ∈ bc ∧
      i ∈ constantTempNodes eo nop BE k := by
  induction bc with
  | nil => simp [lastConstantTempWrite] at h
  | cons kv bc ih =>
    have hcons : lastConstantTempWrite eo nop BE (kv :: bc) i =
        (lastConstantTempWrite eo nop BE bc i).elim
          (match kv.2 with
            | BoundaryCondition.constantTemp v =>
              if i ∈ constantTempNodes eo nop BE kv.1 then some v else none
            | _ => none) some := by
      show bc.foldl _ _ = _
      rw [lastConstantTempWrite_shift]
    rw [hcons] at h
    cases hlw : lastConstantTempWrite eo nop BE bc i with
    | some w2 =>
      rw [hlw] at h
      simp only [Option.elim] at h
      obtain ⟨k2, hk2, hik2⟩ := ih (by rw [hlw, h])
      exact ⟨k2, List.mem_cons_of_mem kv hk2, hik2⟩
    | none =>
      rw [hlw] at h
      simp only [Option.elim] at h
      rcases kv with ⟨k, cond⟩
      cases cond with
      | constantTemp v =>
        dsimp only at h
        by_cases hm : i ∈ constantTempNodes eo nop BE k
        · rw [if_pos hm] at h
          injection h with h2
          exact ⟨k, by simp [h2], hm⟩
        · rw [if_neg hm] at h
          exact absurd h (by simp)
      | convection hc tc =>
        dsimp only at h
        exact absurd h (by simp)

/-- If some constantTemp condition covers the node, the last-write fold
reports a value. -/
theorem lastConstantTempWrite_isSome {F : Type} [LinearOrderedField F]
    (eo : String) (nop : List (List Nat)) (BE : List (List (Nat × Nat)))
    (i : Nat) (bc : List (Nat × BoundaryCondition F)) (k : Nat) (v : F)
    (hkv : (k, BoundaryCondition.constantTemp v) ∈ bc)
    (hi : i ∈ constantTempNodes eo nop BE k) :
    (lastConstantTempWrite eo nop BE bc i).isSome = true := by
  induction bc with
  | nil => simp at hkv
  | cons kv bc ih =>
    have hcons : lastConstantTempWrite eo nop BE (kv :: bc) i =
        (lastConstantTempWrite eo nop BE bc i).elim
          (match kv.2 with
            | BoundaryCondition.constantTemp v =>
              if i ∈ constantTempNodes eo nop BE kv.1 then some v else none
            | _ => none) some := by
      show bc.foldl _ _ = _
      rw [lastConstantTempWrite_shift]
    rw [hcons]
    cases hlw : lastConstantTempWrite eo nop BE bc i with
    | some w => rfl
    | none =>
      rcases List.mem_cons.mp hkv with hhead | htail
      · rw [← hhead]
        simp [hi]
      · have := ih htail
        rw [hlw] at this
        simp at this

/-- Closed form of the full constantTemp imposition: when the run
succeeds, each residual entry holds the last value written to it (or its
old value), and each jacobian row written by any constantTemp condition is
clean while every other row is untouched. -/
theorem imposeConstantTemp_closed {F : Type} [LinearOrderedField F]
    (eo : String) (bc : List (Nat × BoundaryCondition F))
    (BE : List (List (Nat × Nat))) (nop : List (List Nat)) (n : Nat)
    (R : Nat → F) (J : Nat → Nat → F) (s2 : (Nat → F) × (Nat → Nat → F))
    (h : imposeConstantTempBoundaryConditions "2D" eo bc BE nop n R J = Except.ok s2) :
    (∀ i, s2.1 i = (lastConstantTempWrite eo nop BE bc i).getD (R i)) ∧
    (∀ i j, s2.2 i j =
      if i ∈ allConstantTempNodes eo nop BE bc then
        (if j = i then 1 else if j < n then 0 else J i j)
      else J i j) := by
  have h2 : bc.foldlM (constantTempKeyStep eo BE nop n) (R, J) = Except.ok s2 := h
  clear h
  induction bc generalizing R J with
  | nil =>
    rw [foldlM_except_nil] at h2
    injection h2 with h3
    constructor
    · intro i
      rw [← h3]
      rfl
    · intro i j
      rw [← h3]
      simp [allConstantTempNodes]
  | cons kv bc ih =>
    rw [foldlM_except_cons] at h2
    rcases kv with ⟨k, cond⟩
    cases cond with
    | convection hc tc => exact ih R J h2
    | constantTemp v =>
      cases hBE : BE[k]? with
      | none =>
        have hstep : constantTempKeyStep eo BE nop n (R, J)
            (k, BoundaryCondition.constantTemp v) =
            Except.error "TypeError: boundaryElements[boundaryKey] is undefined" := by
          simp [constantTempKeyStep, hBE]
        rw [hstep] at h2
        exact Except.noConfusion h2
      | some elems =>
        cases htab : boundarySidesTable eo k with
        | some sides =>
          have hstep : constantTempKeyStep eo BE nop n (R, J)
              (k, BoundaryCondition.constantTemp v) =
              Except.ok ((elems.flatMap (fun elem =>
                  sides.map (fun nodeIndex => localGlobalIndex nop elem.1 nodeIndex))).foldl
                (fun s g => applyConstantTempNode n v s g) (R, J)) := by
            simp only [constantTempKeyStep, hBE]
            exact constantTempElems_run eo k nop n v sides htab elems (R, J)
          rw [hstep] at h2
          have hgs := constantTempNodes_eq eo nop BE k elems sides hBE htab
          have h3 := ih ((elems.flatMap (fun elem =>
              sides.map (fun nodeIndex => localGlobalIndex nop elem.1 nodeIndex))).foldl
                (fun s g => applyConstantTempNode n v s g) (R, J)).1
            ((elems.flatMap (fun elem =>
              sides.map (fun nodeIndex => localGlobalIndex nop elem.1 nodeIndex))).foldl
                (fun s g => applyConstantTempNode n v s g) (R, J)).2 h2
          constructor
          · intro i
            rw [h3.1 i, applyNodesList_fst]
            have hcons : lastConstantTempWrite eo nop BE
                ((k, BoundaryCondition.constantTemp v) :: bc) i =
                (lastConstantTempWrite eo nop BE bc i).elim
                  (if i ∈ constantTempNodes eo nop BE k then some v else none) some := by
              show bc.foldl _ _ = _
              rw [lastConstantTempWrite_shift]
            rw [hcons, hgs]
            cases hlw : lastConstantTempWrite eo nop BE bc i with
            | some w => simp
            | none =>
              by_cases hm : i ∈ elems.flatMap (fun elem =>
                  sides.map (fun nodeIndex => localGlobalIndex nop elem.1 nodeIndex)) <;>
                simp [hm]
          · intro i j
            rw [h3.2 i j]
            have hmem : i ∈ allConstantTempNodes eo nop BE
                ((k, BoundaryCondition.constantTemp v) :: bc) ↔
                i ∈ elems.flatMap (fun elem =>
                  sides.map (fun nodeIndex => localGlobalIndex nop elem.1 nodeIndex)) ∨
                i ∈ allConstantTempNodes eo nop BE bc := by
              show i ∈ constantTempNodes eo nop BE k ++ allConstantTempNodes eo nop BE bc ↔ _
              rw [hgs, List.mem_append]
            rw [applyNodesList_snd]
            by_cases hA : i ∈ allConstantTempNodes eo nop BE bc
            · rw [if_pos hA, if_pos (hmem.mpr (Or.inr hA))]
              by_cases h4 : j = i
              · simp [h4]
              · by_cases h5 : j < n
                · simp [h4, h5]
                · simp [h4, h5]
            · rw [if_neg hA]
              by_cases hm : i ∈ elems.flatMap (fun elem =>
                  sides.map (fun nodeIndex => localGlobalIndex nop elem.1 nodeIndex))
              · rw [if_pos hm, if_pos (hmem.mpr (Or.inl hm))]
              · rw [if_neg hm, if_neg (by rw [hmem]; push_neg; exact ⟨hm, hA⟩)]
        | none =>
          cases elems with
          | nil =>
            have hstep : constantTempKeyStep eo BE nop n (R, J)
                (k, BoundaryCondition.constantTemp v) = Except.ok (R, J) := by
              simp [constantTempKeyStep, hBE]
              rfl
            rw [hstep] at h2
            have h3 := ih R J h2
            have hnodes : constantTempNodes eo nop BE k = [] := by
              simp [constantTempNodes, List.getD_eq_getElem?_getD, hBE]
            constructor
            · intro i
              rw [h3.1 i]
              have hcons : lastConstantTempWrite eo nop BE
                  ((k, BoundaryCondition.constantTemp v) :: bc) i =
                  (lastConstantTempWrite eo nop BE bc i).elim
                    (if i ∈ constantTempNodes eo nop BE k then some v else none) some := by
                show bc.foldl _ _ = _
                rw [lastConstantTempWrite_shift]
              rw [hcons, hnodes]
              cases hlw : lastConstantTempWrite eo nop BE bc i with
              | some w => simp
              | none => simp
            · intro i j
              rw [h3.2 i j]
              have hmem : i ∈ allConstantTempNodes eo nop BE
                  ((k, BoundaryCondition.constantTemp v) :: bc) ↔
                  i ∈ allConstantTempNodes eo nop BE bc := by
                show i ∈ constantTempNodes eo nop BE k ++ allConstantTempNodes eo nop BE bc ↔ _
                rw [hnodes, List.nil_append]
              by_cases hA : i ∈ allConstantTempNodes eo nop BE bc
              · rw [if_pos hA, if_pos (hmem.mpr hA)]
              · rw [if_neg hA, if_neg (by rw [hmem]; exact hA)]
          | cons e es =>
            have hstep : constantTempKeyStep eo BE nop n (R, J)
                (k, BoundaryCondition.constantTemp v) =
                Except.error "TypeError: boundarySides[boundaryKey] is undefined" := by
              simp only [constantTempKeyStep, hBE, foldlM_except_cons, constantTempElementStep,
                htab]
              rfl
            rw [hstep] at h2
            exact Except.noConfusion h2

/-- C1 (amended): after imposeConstantTempBoundaryConditions succeeds,
every global node written by a constantTemp boundary has jacobian row i
with diagonal entry one and every other column below the residual length
zero; its residual equals the imposed value v provided every constantTemp
boundary containing the node imposes that same value (at a corner shared
by boundaries with different values the last-processed key wins, as the
companion counterexample shows). -/
theorem imposeConstantTemp_dirichlet_rows {F : Type} [LinearOrderedField F]
    (eo : String) (bc : List (Nat × BoundaryCondition F))
    (BE : List (List (Nat × Nat))) (nop : List (List Nat)) (n : Nat)
    (R : Nat → F) (J : Nat → Nat → F) (s2 : (Nat → F) × (Nat → Nat → F))
    (h : imposeConstantTempBoundaryConditions "2D" eo bc BE nop n R J = Except.ok s2)
    (k : Nat) (v : F) (hkv : (k, BoundaryCondition.constantTemp v) ∈ bc)
    (i : Nat) (hi : i ∈ constantTempNodes eo nop BE k) :
    s2.2 i i = 1 ∧
    (∀ j, j ≠ i → j < n → s2.2 i j = 0) ∧
    ((∀ k2 v2, (k2, BoundaryCondition.constantTemp v2) ∈ bc →
        i ∈ constantTempNodes eo nop BE k2 → v2 = v) → s2.1 i = v) := by
  obtain ⟨hR, hJ⟩ := imposeConstantTemp_closed eo bc BE nop n R J s2 h
  have hall : i ∈ allConstantTempNodes eo nop BE bc :=
    List.mem_flatMap.mpr ⟨(k, BoundaryCondition.constantTemp v), hkv, hi⟩
  refine ⟨?_, ?_, ?_⟩
  · rw [hJ i i, if_pos hall, if_pos rfl]
  · intro j hj hjn
    rw [hJ i j, if_pos hall, if_neg hj, if_pos hjn]
  · intro hagree
    have hsome := lastConstantTempWrite_isSome eo nop BE i bc k v hkv hi
    obtain ⟨w, hw⟩ := Option.isSome_iff_exists.mp hsome
    obtain ⟨k2, hk2, hik2⟩ := lastConstantTempWrite_provenance eo nop BE i bc w hw
    rw [hR i, hw, hagree k2 w hk2 hik2]
    rfl

/-- Witness for imposeConstantTemp_dirichlet_rows: value 5 on the left
boundary (key 1) of the 1-by-1 quadratic mesh; node 0 lies on that
boundary. -/
theorem imposeConstantTemp_dirichlet_rows_witness :
    leftDirichletRun = Except.ok leftDirichletPair ∧
    leftDirichletPair.2 0 0 = 1 ∧ leftDirichletPair.2 0 3 = 0 ∧
    leftDirichletPair.1 0 = 5 := by
  have hT := imposeConstantTemp_dirichlet_rows "quadratic"
    [(1, BoundaryCondition.constantTemp (5 : ℚ))]
    (generateMeshFromGeometry2D "quadratic" 1 1 (1 : ℚ) 1).boundaryElements
    (generateMeshFromGeometry2D "quadratic" 1 1 (1 : ℚ) 1).nodalNumbering
    9 (fun _ => 0) (fun _ _ => 0) leftDirichletPair rfl 1 5 (by simp) 0 (by decide)
  refine ⟨rfl, hT.1, hT.2.1 3 (by decide) (by decide), hT.2.2 ?_⟩
  intro k2 v2 hmem _
  simp at hmem
  exact hmem.2

/-- C1 counterexample: on the 1-by-1 quadratic mesh with constantTemp 5 on
the bottom boundary (key 0) and constantTemp 7 on the left boundary
(key 1), corner node 0 lies on the bottom boundary whose condition has
value 5, yet after imposition its residual holds 7 (the later key's
write), so the claim as stated fails at this input. -/
theorem imposeConstantTemp_corner_conflict :
    cornerConflictRun = Except.ok cornerConflictPair ∧
    (0, BoundaryCondition.constantTemp (5 : ℚ)) ∈
      [(0, BoundaryCondition.constantTemp (5 : ℚ)), (1, BoundaryCondition.constantTemp 7)] ∧
    0 ∈ constantTempNodes "quadratic"
      (generateMeshFromGeometry2D "quadratic" 1 1 (1 : ℚ) 1).nodalNumbering
      (generateMeshFromGeometry2D "quadratic" 1 1 (1 : ℚ) 1).boundaryElements 0 ∧
    cornerConflictPair.1 0 = 7 ∧ (7 : ℚ) ≠ 5 :=
  ⟨rfl, by simp, by decide, by decide, by norm_num⟩

/-- foldlM over a mapped list in the Except monad. -/
theorem foldlM_map_except {α β γ : Type} (h : γ → β) (g : α → β → Except String α)
    (l : List γ) (s : α) :
    (l.map h).foldlM g s = l.foldlM (fun s x => g s (h x)) s := by
  induction l generalizing s with
  | nil => rfl
  | cons a l ih =>
    rw [List.map_cons, foldlM_except_cons, foldlM_except_cons]
    cases hg : g s (h a) with
    | error e => rfl
    | ok s2 =>
      show (l.map h).foldlM g s2 = l.foldlM _ s2
      exact ih s2

/-- Pointwise-equal step functions give equal foldlM runs. -/
theorem foldlM_congr_except {α β : Type} (f g : α → β → Except String α)
    (hfg : ∀ s b, f s b = g s b) (l : List β) (s : α) :
    l.foldlM f s = l.foldlM g s := by
  induction l generalizing s with
  | nil => rfl
  | cons a l ih =>
    rw [foldlM_except_cons, foldlM_except_cons, hfg s a]
    cases g s a with
    | error e => rfl
    | ok s2 =>
      show l.foldlM f s2 = l.foldlM g s2
      exact ih s2

/-- The per-key constantTemp step reads only the element index of each
boundary-element pair, never the stored side tag. -/
theorem constantTempKeyStep_mapSideTags {F : Type} [LinearOrderedField F]
    (eo : String) (f : Nat × Nat → Nat) (BE : List (List (Nat × Nat)))
    (nop : List (List Nat)) (n : Nat)
    (s : (Nat → F) × (Nat → Nat → F)) (kv : Nat × BoundaryCondition F) :
    constantTempKeyStep eo (mapBoundarySideTags f BE) nop n s kv =
      constantTempKeyStep eo BE nop n s kv := by
  rcases kv with ⟨k, cond⟩
  cases cond with
  | convection hc tc => rfl
  | constantTemp v =>
    have hget : (mapBoundarySideTags f BE)[k]? =
        BE[k]?.map (List.map (fun p => (p.1, f p))) :=
      List.getElem?_map _ _ _
    show (match (mapBoundarySideTags f BE)[k]? with
      | none => Except.error "TypeError: boundaryElements[boundaryKey] is undefined"
      | some elems => elems.foldlM (constantTempElementStep eo k nop n v) s) =
      (match BE[k]? with
      | none => Except.error "TypeError: boundaryElements[boundaryKey] is undefined"
      | some elems => elems.foldlM (constantTempElementStep eo k nop n v) s)
    rw [hget]
    cases BE[k]? with
    | none => rfl
    | some elems =>
      show (elems.map (fun p => (p.1, f p))).foldlM (constantTempElementStep eo k nop n v) s =
        elems.foldlM (constantTempElementStep eo k nop n v) s
      rw [foldlM_map_except]
      exact foldlM_congr_except _ _ (fun s x => rfl) elems s

/-- C10: both imposition methods index the boundaryElements array with the
boundary-condition key itself, and the constantTemp method indexes the
edge-local node table with the key as well: (a) replacing every stored
side tag changes nothing in the constantTemp imposition; (b) a single
constantTemp condition on key k writes exactly the nodes selected by the
side-k table row over the elements listed under index k, leaving every
other residual entry and jacobian row untouched; (c, d) a condition
registered under a key with no boundary-element list makes the respective
imposition call fail on the undefined list instead of touching any row. -/
theorem boundaryConditionKey_indexing {F : Type} [LinearOrderedField F]
    (eo : String) (k : Nat) (v hcoeff htemp : F)
    (BE : List (List (Nat × Nat))) (nop : List (List Nat)) (n : Nat)
    (R : Nat → F) (J : Nat → Nat → F)
    (bc : List (Nat × BoundaryCondition F))
    (gaussPoints gaussWeights nodesX nodesY : List F)
    (cc ce : Nat → F) :
    (∀ f, imposeConstantTempBoundaryConditions "2D" eo bc (mapBoundarySideTags f BE) nop n R J =
      imposeConstantTempBoundaryConditions "2D" eo bc BE nop n R J) ∧
    (∀ s2, imposeConstantTempBoundaryConditions "2D" eo
        [(k, BoundaryCondition.constantTemp v)] BE nop n R J = Except.ok s2 →
      (∀ i, i ∈ constantTempNodes eo nop BE k →
        s2.1 i = v ∧ s2.2 i i = 1 ∧ ∀ j, j ≠ i → j < n → s2.2 i j = 0) ∧
      (∀ i, i ∉ constantTempNodes eo nop BE k →
        s2.1 i = R i ∧ ∀ j, s2.2 i j = J i j)) ∧
    (BE[k]? = none →
      imposeConstantTempBoundaryConditions "2D" eo [(k, BoundaryCondition.constantTemp v)]
        BE nop n R J =
      Except.error "TypeError: boundaryElements[boundaryKey] is undefined") ∧
    (BE[k]? = none →
      imposeConvectionBoundaryConditions "2D" eo
        [(k, BoundaryCondition.convection hcoeff htemp)] BE nop R J gaussPoints gaussWeights
        nodesX nodesY cc ce =
      Except.error "TypeError: boundaryElements[boundaryKey] is undefined") := by
  refine ⟨?_, ?_, ?_, ?_⟩
  · intro f
    show List.foldlM (constantTempKeyStep eo (mapBoundarySideTags f BE) nop n) (R, J) bc =
      List.foldlM (constantTempKeyStep eo BE nop n) (R, J) bc
    exact foldlM_congr_except _ _
      (fun s kv => constantTempKeyStep_mapSideTags eo f BE nop n s kv) bc (R, J)
  · intro s2 h
    obtain ⟨hR, hJ⟩ := imposeConstantTemp_closed eo [(k, BoundaryCondition.constantTemp v)]
      BE nop n R J s2 h
    have hlw : ∀ i, lastConstantTempWrite eo nop BE
        [(k, BoundaryCondition.constantTemp v)] i =
        if i ∈ constantTempNodes eo nop BE k then some v else none := fun i => rfl
    have hall : ∀ i, i ∈ allConstantTempNodes eo nop BE
        [(k, BoundaryCondition.constantTemp v)] ↔ i ∈ constantTempNodes eo nop BE k := by
      intro i
      simp [allConstantTempNodes]
    constructor
    · intro i hi
      refine ⟨?_, ?_, ?_⟩
      · rw [hR i, hlw i, if_pos hi]
        rfl
      · rw [hJ i i, if_pos ((hall i).mpr hi), if_pos rfl]
      · intro j hj hjn
        rw [hJ i j, if_pos ((hall i).mpr hi), if_neg hj, if_pos hjn]
    · intro i hi
      refine ⟨?_, fun j => ?_⟩
      · rw [hR i, hlw i, if_neg hi]
        rfl
      · rw [hJ i j, if_neg (fun hmem => hi ((hall i).mp hmem))]
  · intro hBE
    show List.foldlM (constantTempKeyStep eo BE nop n) (R, J)
      [(k, BoundaryCondition.constantTemp v)] = _
    have hstep : constantTempKeyStep eo BE nop n (R, J)
        (k, BoundaryCondition.constantTemp v) =
        Except.error "TypeError: boundaryElements[boundaryKey] is undefined" := by
      simp [constantTempKeyStep, hBE]
    rw [foldlM_except_cons, hstep]
    rfl
  · intro hBE
    show List.foldlM (convectionKeyStep "2D" eo BE nop gaussPoints gaussWeights
      nodesX nodesY cc ce) (R, J) [(k, BoundaryCondition.convection hcoeff htemp)] = _
    have hstep : convectionKeyStep "2D" eo BE nop gaussPoints gaussWeights nodesX nodesY
        cc ce (R, J) (k, BoundaryCondition.convection hcoeff htemp) =
        Except.error "TypeError: boundaryElements[boundaryKey] is undefined" := by
      simp [convectionKeyStep, hBE]
    rw [foldlM_except_cons, hstep]
    rfl

/-- Witness for boundaryConditionKey_indexing on the 1-by-1 quadratic
mesh: key 1 (left boundary) for the valid-key parts, key 7 for the
undefined-list parts. -/
theorem boundaryConditionKey_indexing_witness :
    (imposeConstantTempBoundaryConditions "2D" "quadratic"
        [(1, BoundaryCondition.constantTemp (5 : ℚ))]
        (mapBoundarySideTags (fun _ => 9)
          (generateMeshFromGeometry2D "quadratic" 1 1 (1 : ℚ) 1).boundaryElements)
        (generateMeshFromGeometry2D "quadratic" 1 1 (1 : ℚ) 1).nodalNumbering
        9 (fun _ => 0) (fun _ _ => 0) =
      imposeConstantTempBoundaryConditions "2D" "quadratic"
        [(1, BoundaryCondition.constantTemp (5 : ℚ))]
        (generateMeshFromGeometry2D "quadratic" 1 1 (1 : ℚ) 1).boundaryElements
        (generateMeshFromGeometry2D "quadratic" 1 1 (1 : ℚ) 1).nodalNumbering
        9 (fun _ => 0) (fun _ _ => 0)) ∧
    leftDirichletPair.1 2 = 5 ∧ leftDirichletPair.2 2 2 = 1 ∧ leftDirichletPair.2 2 5 = 0 ∧
    leftDirichletPair.1 4 = 0 ∧ leftDirichletPair.2 4 7 = 0 ∧
    (imposeConstantTempBoundaryConditions "2D" "quadratic"
        [(7, BoundaryCondition.constantTemp (5 : ℚ))]
        (generateMeshFromGeometry2D "quadratic" 1 1 (1 : ℚ) 1).boundaryElements
        (generateMeshFromGeometry2D "quadratic" 1 1 (1 : ℚ) 1).nodalNumbering
        9 (fun _ => 0) (fun _ _ => 0) =
      Except.error "TypeError: boundaryElements[boundaryKey] is undefined") ∧
    (imposeConvectionBoundaryConditions "2D" "quadratic"
        [(7, BoundaryCondition.convection (2 : ℚ) 3)]
        (generateMeshFromGeometry2D "quadratic" 1 1 (1 : ℚ) 1).boundaryElements
        (generateMeshFromGeometry2D "quadratic" 1 1 (1 : ℚ) 1).nodalNumbering
        (fun _ => 0) (fun _ _ => 0) [1 / 2] [1]
        (generateMeshFromGeometry2D "quadratic" 1 1 (1 : ℚ) 1).nodesXCoordinates
        (generateMeshFromGeometry2D "quadratic" 1 1 (1 : ℚ) 1).nodesYCoordinates
        (fun _ => 2) (fun _ => 3) =
      Except.error "TypeError: boundaryElements[boundaryKey] is undefined") := by
  have h1 := boundaryConditionKey_indexing "quadratic" 1 (5 : ℚ) 2 3
    (generateMeshFromGeometry2D "quadratic" 1 1 (1 : ℚ) 1).boundaryElements
    (generateMeshFromGeometry2D "quadratic" 1 1 (1 : ℚ) 1).nodalNumbering
    9 (fun _ => 0) (fun _ _ => 0) [(1, BoundaryCondition.constantTemp (5 : ℚ))]
    [1 / 2] [1]
    (generateMeshFromGeometry2D "quadratic" 1 1 (1 : ℚ) 1).nodesXCoordinates
    (generateMeshFromGeometry2D "quadratic" 1 1 (1 : ℚ) 1).nodesYCoordinates
    (fun _ => 2) (fun _ => 3)
  have h7 := boundaryConditionKey_indexing "quadratic" 7 (5 : ℚ) 2 3
    (generateMeshFromGeometry2D "quadratic" 1 1 (1 : ℚ) 1).boundaryElements
    (generateMeshFromGeometry2D "quadratic" 1 1 (1 : ℚ) 1).nodalNumbering
    9 (fun _ => 0) (fun _ _ => 0) [(1, BoundaryCondition.constantTemp (5 : ℚ))]
    [1 / 2] [1]
    (generateMeshFromGeometry2D "quadratic" 1 1 (1 : ℚ) 1).nodesXCoordinates
    (generateMeshFromGeometry2D "quadratic" 1 1 (1 : ℚ) 1).nodesYCoordinates
    (fun _ => 2) (fun _ => 3)
  have hok := h1.2.1 leftDirichletPair rfl
  have hin := hok.1 2 (by decide)
  have hout := hok.2 4 (by decide)
  exact ⟨h1.1 (fun _ => 9), hin.1, hin.2.1, hin.2.2 5 (by decide) (by decide),
    hout.1, hout.2 7, h7.2.2.1 (by decide), h7.2.2.2 (by decide)⟩

/-- Summing a list of zeros gives zero. -/
theorem sum_map_zero_fun {F α : Type} [LinearOrderedField F] (L : List α) :
    (L.map (fun _ => (0 : F))).sum = 0 := by
  induction L with
  | nil => rfl
  | cons a L ih => simp [ih]

/-- Summing a pointwise sum splits. -/
theorem sum_map_add_fun {F α : Type} [LinearOrderedField F] (L : List α) (f g : α → F) :
    (L.map (fun x => f x + g x)).sum = (L.map f).sum + (L.map g).sum := by
  induction L with
  | nil => simp
  | cons a L ih =>
    simp only [List.map_cons, List.sum_cons, ih]
    ring

/-- Exchanging the order of a double list sum. -/
theorem sum_map_swap {F α β : Type} [LinearOrderedField F]
    (Lo : List α) (Li : List β) (h : α → β → F) :
    (Lo.map (fun m => (Li.map (fun x => h m x)).sum)).sum =
      (Li.map (fun x => (Lo.map (fun m => h m x)).sum)).sum := by
  induction Lo with
  | nil =>
    simp only [List.map_nil, List.sum_nil]
    exact (sum_map_zero_fun Li).symm
  | cons m Lo ih =>
    simp only [List.map_cons, List.sum_cons, ih]
    rw [← sum_map_add_fun]

/-- Pulling a condition inside a list sum. -/
theorem ite_sum_map {F α : Type} [LinearOrderedField F]
    (c : Prop) [Decidable c] (L : List α) (f : α → F) :
    (if c then (L.map f).sum else 0) = (L.map (fun x => if c then f x else 0)).sum := by
  by_cases hc : c
  · simp [hc]
  · simp [hc, sum_map_zero_fun]

/-- Swapping two nested conditions around a value with zero defaults. -/
theorem ite_ite_swap {F : Type} [LinearOrderedField F]
    (a b : Prop) [Decidable a] [Decidable b] (x : F) :
    (if a then (if b then x else 0) else 0) = if b then (if a then x else 0) else 0 := by
  by_cases ha : a <;> by_cases hb : b <;> simp [ha, hb]

/-- Closed form of the inner jacobian accumulation loop: row a gains the
sum of the contributions whose column lands on j. -/
theorem foldl_updAdd_apply {F : Type} [LinearOrderedField F]
    (L : List Nat) (a : Nat) (gv : Nat → Nat) (t : Nat → F)
    (J : Nat → Nat → F) (i j : Nat) :
    (L.foldl (fun J m2 => updAdd J a (gv m2) (t m2)) J) i j =
      J i j + if i = a then (L.map (fun m2 => if j = gv m2 then t m2 else 0)).sum else 0 := by
  induction L generalizing J with
  | nil => simp
  | cons m2 L ih =>
    rw [List.foldl_cons, ih]
    by_cases hi : i = a
    · by_cases hj : j = gv m2
      · simp only [updAdd, hi, hj, and_self, if_true, List.map_cons, List.sum_cons]
        ring
      · simp only [updAdd, hi, hj, and_false, if_false, List.map_cons, List.sum_cons, if_true]
        ring
    · simp [updAdd, hi]

/-- Closed form of the nested jacobian accumulation loops. -/
theorem foldl_nested_updAdd_apply {F : Type} [LinearOrderedField F]
    (Lo Li : List Nat) (gv : Nat → Nat) (t : Nat → Nat → F)
    (J : Nat → Nat → F) (i j : Nat) :
    (Lo.foldl (fun J m => Li.foldl (fun J m2 => updAdd J (gv m) (gv m2) (t m m2)) J) J) i j =
      J i j + (Lo.map (fun m =>
        if i = gv m then (Li.map (fun m2 => if j = gv m2 then t m m2 else 0)).sum
        else 0)).sum := by
  induction Lo generalizing J with
  | nil => simp
  | cons m Lo ih =>
    rw [List.foldl_cons, ih, foldl_updAdd_apply]
    simp only [List.map_cons, List.sum_cons]
    ring

/-- A fold of componentwise updates of a pair is the pair of the
componentwise folds. -/
theorem foldl_prod_split {α β γ : Type} (L : List γ)
    (f : α → γ → α) (g : β → γ → β) (a : α) (b : β) :
    L.foldl (fun p c => (f p.1 c, g p.2 c)) (a, b) = (L.foldl f a, L.foldl g b) := by
  induction L generalizing a b with
  | nil => rfl
  | cons c L ih => simp [List.foldl_cons, ih]

/-- The jacobian component of accumulateNodePairContributions is the
nested accumulation fold, independent of the residual updates. -/
theorem accumulateNodePairContributions_snd {F : Type} [LinearOrderedField F]
    (L : List Nat) (gv : Nat → Nat) (rterm : Nat → F) (jterm : Nat → Nat → F)
    (s : (Nat → F) × (Nat → Nat → F)) :
    (accumulateNodePairContributions L gv rterm jterm s).2 =
      L.foldl (fun J m => L.foldl (fun J m2 => updAdd J (gv m) (gv m2) (jterm m m2)) J) s.2 := by
  have h := foldl_prod_split L (fun R m => vecAdd R (gv m) (rterm m))
    (fun J m => L.foldl (fun J m2 => updAdd J (gv m) (gv m2) (jterm m m2)) J) s.1 s.2
  calc (accumulateNodePairContributions L gv rterm jterm s).2
      = (L.foldl (fun p c =>
          ((fun R m => vecAdd R (gv m) (rterm m)) p.1 c,
           (fun J m => L.foldl (fun J m2 => updAdd J (gv m) (gv m2) (jterm m m2)) J) p.2 c))
          (s.1, s.2)).2 := rfl
    _ = L.foldl (fun J m => L.foldl (fun J m2 => updAdd J (gv m) (gv m2) (jterm m m2)) J) s.2 := by
          rw [h]

/-- Accumulating a symmetric contribution over the same index list on both
axes preserves matrix symmetry. -/
theorem accumulateNodePairContributions_symm {F : Type} [LinearOrderedField F]
    (L : List Nat) (gv : Nat → Nat) (rterm : Nat → F) (jterm : Nat → Nat → F)
    (hsym : ∀ m m2, jterm m m2 = jterm m2 m)
    (s : (Nat → F) × (Nat → Nat → F)) (hs : ∀ i j, s.2 i j = s.2 j i) (i j : Nat) :
    (accumulateNodePairContributions L gv rterm jterm s).2 i j =
      (accumulateNodePairContributions L gv rterm jterm s).2 j i := by
  rw [accumulateNodePairContributions_snd]
  rw [foldl_nested_updAdd_apply, foldl_nested_updAdd_apply, hs i j]
  congr 1
  have flat : ∀ (i2 j2 : Nat),
      (L.map (fun m => if i2 = gv m then
        (L.map (fun m2 => if j2 = gv m2 then jterm m m2 else 0)).sum else 0)).sum =
      (L.map (fun m =>
        (L.map (fun m2 =>
          if i2 = gv m then (if j2 = gv m2 then jterm m m2 else 0) else 0)).sum)).sum := by
    intro i2 j2
    congr 1
    refine List.map_eq_map_iff.mpr (fun m _ => ?_)
    exact ite_sum_map _ _ _
  rw [flat i j, flat j i]
  rw [sum_map_swap]
  congr 1
  refine List.map_eq_map_iff.mpr (fun x _ => ?_)
  congr 1
  refine List.map_eq_map_iff.mpr (fun m _ => ?_)
  rw [ite_ite_swap, hsym m x]

/-- A property preserved by every step of a fold holds for its result. -/
theorem foldl_preserve {α β : Type} (P : α → Prop) (f : α → β → α) (L : List β) (s : α)
    (hstep : ∀ s b, P s → P (f s b)) (hs : P s) : P (L.foldl f s) := by
  induction L generalizing s with
  | nil => exact hs
  | cons b L ih => exact ih (f s b) (hstep s b hs)

/-- A property preserved by every successful step of an Except fold holds
for a successful run's result. -/
theorem foldlM_except_preserve {α β : Type} (P : α → Prop)
    (f : α → β → Except String α) (L : List β) (s s2 : α)
    (hstep : ∀ s b s3, f s b = Except.ok s3 → P s → P s3)
    (hrun : L.foldlM f s = Except.ok s2) (hs : P s) : P s2 := by
  induction L generalizing s with
  | nil =>
    rw [foldlM_except_nil] at hrun
    injection hrun with h
    rw [← h]
    exact hs
  | cons b L ih =>
    rw [foldlM_except_cons] at hrun
    cases hb : f s b with
    | error e =>
      rw [hb] at hrun
      exact Except.noConfusion hrun
    | ok s3 =>
      rw [hb] at hrun
      exact ih s3 hrun (hstep s b s3 hb hs)

/-- One convection edge Gauss-point update preserves jacobian symmetry. -/
theorem convectionEdgeGaussUpdate_symm {F : Type} [LinearOrderedField F]
    (meshDimension elementOrder : String)
    (nodesXCoordinates nodesYCoordinates : List F) (nop : List (List Nat))
    (convectionCoeff extTemp : F) (e side : Nat)
    (params : F × F × Nat × Nat × Nat) (w : F)
    (s : (Nat → F) × (Nat → Nat → F)) (hs : ∀ i j, s.2 i j = s.2 j i) (i j : Nat) :
    (convectionEdgeGaussUpdate meshDimension elementOrder nodesXCoordinates nodesYCoordinates
      nop convectionCoeff extTemp e side params w s).2 i j =
    (convectionEdgeGaussUpdate meshDimension elementOrder nodesXCoordinates nodesYCoordinates
      nop convectionCoeff extTemp e side params w s).2 j i := by
  simp only [convectionEdgeGaussUpdate]
  split_ifs
  · exact accumulateNodePairContributions_symm _ _ _ _ (fun m m2 => by ring) s hs i j
  · exact accumulateNodePairContributions_symm _ _ _ _ (fun m m2 => by ring) s hs i j
  · exact hs i j

/-- The per-element convection update preserves jacobian symmetry. -/
theorem convectionElementUpdate_symm {F : Type} [LinearOrderedField F]
    (meshDimension elementOrder : String)
    (nodesXCoordinates nodesYCoordinates : List F) (nop : List (List Nat))
    (gaussPoints gaussWeights : List F) (convectionCoeff extTemp : F)
    (s : (Nat → F) × (Nat → Nat → F)) (hs : ∀ i j, s.2 i j = s.2 j i)
    (elem : Nat × Nat) (i j : Nat) :
    (convectionElementUpdate meshDimension elementOrder nodesXCoordinates nodesYCoordinates
      nop gaussPoints gaussWeights convectionCoeff extTemp s elem).2 i j =
    (convectionElementUpdate meshDimension elementOrder nodesXCoordinates nodesYCoordinates
      nop gaussPoints gaussWeights convectionCoeff extTemp s elem).2 j i := by
  simp only [convectionElementUpdate]
  split_ifs
  · exact convectionEdgeGaussUpdate_symm _ _ _ _ _ _ _ _ _ _ _ s hs i j
  · exact foldl_preserve (fun st => ∀ i j, st.2 i j = st.2 j i)
      (fun s gaussPointIndex => convectionEdgeGaussUpdate meshDimension elementOrder
        nodesXCoordinates nodesYCoordinates nop convectionCoeff extTemp elem.1 elem.2
        (convectionEdgeParamsQuadratic gaussPoints gaussPointIndex elem.2)
        (gaussWeights.getD gaussPointIndex 0) s)
      (List.range 3) s
      (fun s2 b hs2 => convectionEdgeGaussUpdate_symm _ _ _ _ _ _ _ _ _ _ _ s2 hs2) hs i j
  · exact hs i j

/-- One assembly Gauss-point update preserves jacobian symmetry. -/
theorem assemblyGaussPointUpdate_symm {F : Type} [LinearOrderedField F]
    (meshDimension elementOrder : String)
    (nodesXCoordinates nodesYCoordinates : List F)
    (nop : List (List Nat)) (e : Nat) (w1 w2 ksi eta : F)
    (s : (Nat → F) × (Nat → Nat → F)) (hs : ∀ i j, s.2 i j = s.2 j i) (i j : Nat) :
    (assemblyGaussPointUpdate meshDimension elementOrder nodesXCoordinates nodesYCoordinates
      nop e w1 w2 ksi eta s).2 i j =
    (assemblyGaussPointUpdate meshDimension elementOrder nodesXCoordinates nodesYCoordinates
      nop e w1 w2 ksi eta s).2 j i := by
  simp only [assemblyGaussPointUpdate]
  exact accumulateNodePairContributions_symm _ _ _ _ (fun m m2 => by ring) s hs i j

/-- C2-core: the matrix assembled by the element loop (before any
boundary-condition imposition) is symmetric. -/
theorem assembledSystem_symm {F : Type} [LinearOrderedField F]
    (sqrt35 : F) (elementOrder : String) (numElementsX numElementsY : Nat)
    (maxX maxY : F) (i j : Nat) :
    (assembledSystem sqrt35 elementOrder numElementsX numElementsY maxX maxY).2 i j =
    (assembledSystem sqrt35 elementOrder numElementsX numElementsY maxX maxY).2 j i := by
  simp only [assembledSystem]
  refine foldl_preserve
    (fun (st : (Nat → F) × (Nat → Nat → F)) => ∀ i j, st.2 i j = st.2 j i)
    _ _ _ ?_ (fun i j => rfl) i j
  intro s e hs
  refine foldl_preserve
    (fun (st : (Nat → F) × (Nat → Nat → F)) => ∀ i j, st.2 i j = st.2 j i) _ _ _ ?_ hs
  intro s2 i1 hs2
  refine foldl_preserve
    (fun (st : (Nat → F) × (Nat → Nat → F)) => ∀ i j, st.2 i j = st.2 j i) _ _ _ ?_ hs2
  intro s3 i2 hs3
  exact fun i j => assemblyGaussPointUpdate_symm _ _ _ _ _ _ _ _ _ _ s3 hs3 i j

/-- A successful convection key step preserves jacobian symmetry. -/
theorem convectionKeyStep_symm {F : Type} [LinearOrderedField F]
    (meshDimension elementOrder : String)
    (BE : List (List (Nat × Nat))) (nop : List (List Nat))
    (gaussPoints gaussWeights nodesX nodesY : List F) (cc ce : Nat → F)
    (s : (Nat → F) × (Nat → Nat → F)) (kv : Nat × BoundaryCondition F)
    (s3 : (Nat → F) × (Nat → Nat → F))
    (h : convectionKeyStep meshDimension elementOrder BE nop gaussPoints gaussWeights
      nodesX nodesY cc ce s kv = Except.ok s3)
    (hs : ∀ i j, s.2 i j = s.2 j i) : ∀ i j, s3.2 i j = s3.2 j i := by
  rcases kv with ⟨k, cond⟩
  cases cond with
  | constantTemp v =>
    have h2 : Except.ok s = Except.ok s3 := h
    injection h2 with h3
    rw [← h3]
    exact hs
  | convection hc tc =>
    have h2 : (match BE[k]? with
      | none => Except.error "TypeError: boundaryElements[boundaryKey] is undefined"
      | some elems => Except.ok (elems.foldl
          (convectionElementUpdate meshDimension elementOrder nodesX nodesY nop
            gaussPoints gaussWeights (cc k) (ce k)) s)) = Except.ok s3 := h
    cases hBE : BE[k]? with
    | none =>
      rw [hBE] at h2
      exact Except.noConfusion h2
    | some elems =>
      rw [hBE] at h2
      have h3 : Except.ok (elems.foldl
          (convectionElementUpdate meshDimension elementOrder nodesX nodesY nop
            gaussPoints gaussWeights (cc k) (ce k)) s) = Except.ok s3 := h2
      injection h3 with h4
      rw [← h4]
      exact foldl_preserve
        (fun (st : (Nat → F) × (Nat → Nat → F)) => ∀ i j, st.2 i j = st.2 j i) _ elems s
        (fun s4 elem hs4 i j => convectionElementUpdate_symm meshDimension elementOrder
          nodesX nodesY nop gaussPoints gaussWeights (cc k) (ce k) s4 hs4 elem i j) hs

/-- The system just before Dirichlet imposition (assembly plus convection)
has a symmetric matrix, for any element order and boundary conditions. -/
theorem preDirichletSystem_symm {F : Type} [LinearOrderedField F]
    (sqrt35 : F) (elementOrder : String) (nex ney : Nat) (maxX maxY : F)
    (bc : List (Nat × BoundaryCondition F)) (s2 : (Nat → F) × (Nat → Nat → F))
    (h : preDirichletSystem sqrt35 elementOrder nex ney maxX maxY bc = Except.ok s2)
    (m n : Nat) : s2.2 m n = s2.2 n m := by
  have h2 : List.foldlM (convectionKeyStep "2D" elementOrder
      (generateMeshFromGeometry2D elementOrder nex ney maxX maxY).boundaryElements
      (generateMeshFromGeometry2D elementOrder nex ney maxX maxY).nodalNumbering
      (getGaussPointsAndWeights sqrt35 elementOrder).1
      (getGaussPointsAndWeights sqrt35 elementOrder).2
      (generateMeshFromGeometry2D elementOrder nex ney maxX maxY).nodesXCoordinates
      (generateMeshFromGeometry2D elementOrder nex ney maxX maxY).nodesYCoordinates
      (convectionHeatTranfCoeffOf bc) (convectionExtTempOf bc))
      ((assembledSystem sqrt35 elementOrder nex ney maxX maxY).1,
        (assembledSystem sqrt35 elementOrder nex ney maxX maxY).2) bc = Except.ok s2 := h
  exact foldlM_except_preserve
    (fun (st : (Nat → F) × (Nat → Nat → F)) => ∀ i j, st.2 i j = st.2 j i)
    _ bc _ s2
    (fun s kv s3 hstep hs => convectionKeyStep_symm "2D" elementOrder
      (generateMeshFromGeometry2D elementOrder nex ney maxX maxY).boundaryElements
      (generateMeshFromGeometry2D elementOrder nex ney maxX maxY).nodalNumbering
      (getGaussPointsAndWeights sqrt35 elementOrder).1
      (getGaussPointsAndWeights sqrt35 elementOrder).2
      (generateMeshFromGeometry2D elementOrder nex ney maxX maxY).nodesXCoordinates
      (generateMeshFromGeometry2D elementOrder nex ney maxX maxY).nodesYCoordinates
      (convectionHeatTranfCoeffOf bc) (convectionExtTempOf bc) s kv s3 hstep hs)
    h2 (fun i j => assembledSystem_symm sqrt35 elementOrder nex ney maxX maxY i j) m n

/-- C2: for every 2D quadratic structured mesh and boundary conditions,
the matrix produced by assembleSolidHeatTransferMat before the
constantTemp (Dirichlet) imposition, that is after element assembly and
convection accumulation, is symmetric. -/
theorem preDirichlet_matrix_symm {F : Type} [LinearOrderedField F]
    (sqrt35 : F) (nex ney : Nat) (maxX maxY : F)
    (bc : List (Nat × BoundaryCondition F)) (s2 : (Nat → F) × (Nat → Nat → F))
    (h : preDirichletSystem sqrt35 "quadratic" nex ney maxX maxY bc = Except.ok s2)
    (m n : Nat) : s2.2 m n = s2.2 n m :=
  preDirichletSystem_symm sqrt35 "quadratic" nex ney maxX maxY bc s2 h m n

/-- Witness for preDirichlet_matrix_symm: the 1-by-1 quadratic unit-square
mesh with no boundary conditions over the rationals. -/
theorem preDirichlet_matrix_symm_witness :
    preDirichletSystem (0 : ℚ) "quadratic" 1 1 1 1 [] = Except.ok unitAssembledPair ∧
    unitAssembledPair.2 1 3 = unitAssembledPair.2 3 1 :=
  ⟨rfl, preDirichlet_matrix_symm 0 1 1 1 1 [] unitAssembledPair rfl 1 3⟩

/-- Expansion of a 9-term quadrature-node sum. -/
theorem sum_range_nine {F : Type} [LinearOrderedField F] (f : Nat → F) :
    ((List.range 9).map f).sum =
      f 0 + f 1 + f 2 + f 3 + f 4 + f 5 + f 6 + f 7 + f 8 := by
  show (([0, 1, 2, 3, 4, 5, 6, 7, 8] : List Nat).map f).sum = _
  simp [List.sum_cons]
  ring

/-- The 0-based global id stored in the generated quadratic nop for
element e at local position 3*k0 + r. -/
theorem mesh_nop_entry (nex ney e k0 r : Nat) (he : e < nex * ney)
    (hk : k0 < 3) (hr : r < 3) :
    localGlobalIndex
      (generateNodalNumbering "2D" "quadratic" nex ney (2 * nex + 1) (2 * ney + 1))
      e (3 * k0 + r) =
    (2 * ney + 1) * (2 * (e / ney) + k0) + (2 * (e % ney) + r) := by
  have hney : 0 < ney := by
    rcases Nat.eq_zero_or_pos ney with h | h
    · rw [h, Nat.mul_zero] at he
      omega
    · exact h
  have heI : e / ney < nex := (Nat.div_lt_iff_lt_mul hney).mpr he
  have heJ : e % ney < ney := Nat.mod_lt e hney
  have hrow := generateNodalNumbering_element_row nex ney (2 * nex + 1) (2 * ney + 1)
    (e / ney + 1) (e % ney + 1) (k0 + 1) (Nat.succ_le_succ (Nat.zero_le _)) heI
    (Nat.succ_le_succ (Nat.zero_le _)) heJ (Nat.succ_le_succ (Nat.zero_le _)) hk
  have hidx : (e / ney + 1 - 1) * ney + (e % ney + 1 - 1) = e := by
    rw [Nat.add_sub_cancel, Nat.add_sub_cancel, Nat.mul_comm]
    exact Nat.div_add_mod e ney
  rw [hidx, Nat.add_sub_cancel] at hrow
  have hin : 2 * (e / ney + 1) + (k0 + 1) - 3 = 2 * (e / ney) + k0 := by omega
  rw [hin] at hrow
  show (((generateNodalNumbering "2D" "quadratic" nex ney (2 * nex + 1)
    (2 * ney + 1)).getD e []).getD (3 * k0 + r) 0) - 1 = _
  interval_cases r
  · rw [List.getD_eq_getElem?_getD]
    rw [show 3 * k0 + 0 = 3 * k0 from rfl, hrow.2.2.1]
    show (2 * ney + 1) * (2 * (e / ney) + k0) + 2 * (e % ney + 1) - 1 - 1 = _
    generalize (2 * ney + 1) * (2 * (e / ney) + k0) = A
    generalize e % ney = B
    omega
  · rw [List.getD_eq_getElem?_getD, hrow.2.2.2.1]
    show (2 * ney + 1) * (2 * (e / ney) + k0) + 2 * (e % ney + 1) - 1 + 1 - 1 = _
    generalize (2 * ney + 1) * (2 * (e / ney) + k0) = A
    generalize e % ney = B
    omega
  · rw [List.getD_eq_getElem?_getD, hrow.2.2.2.2]
    show (2 * ney + 1) * (2 * (e / ney) + k0) + 2 * (e % ney + 1) - 1 + 2 - 1 = _
    generalize (2 * ney + 1) * (2 * (e / ney) + k0) = A
    generalize e % ney = B
    omega

/-- Coordinates of the mesh node referenced by the generated quadratic nop
at local position 3*k0 + r of element e: the x-coordinate depends only on
the element's x-index and k0, the y-coordinate only on the y-index and r. -/
theorem mesh_coords_at_nop {F : Type} [LinearOrderedField F]
    (nex ney : Nat) (maxX maxY : F) (e k0 r : Nat)
    (he : e < nex * ney) (hk : k0 < 3) (hr : r < 3) :
    ((generateMeshFromGeometry2D "quadratic" nex ney maxX maxY).nodesXCoordinates.getD
        (localGlobalIndex
          (generateMeshFromGeometry2D "quadratic" nex ney maxX maxY).nodalNumbering
          e (3 * k0 + r)) 0 =
      ((2 * (e / ney) + k0 : Nat) : F) * (maxX / (nex : F)) / 2) ∧
    ((generateMeshFromGeometry2D "quadratic" nex ney maxX maxY).nodesYCoordinates.getD
        (localGlobalIndex
          (generateMeshFromGeometry2D "quadratic" nex ney maxX maxY).nodalNumbering
          e (3 * k0 + r)) 0 =
      ((2 * (e % ney) + r : Nat) : F) * (maxY / (ney : F)) / 2) := by
  have hney : 0 < ney := by
    rcases Nat.eq_zero_or_pos ney with h | h
    · rw [h, Nat.mul_zero] at he
      omega
    · exact h
  have heI : e / ney < nex := (Nat.div_lt_iff_lt_mul hney).mpr he
  have heJ : e % ney < ney := Nat.mod_lt e hney
  have hlg : localGlobalIndex
      (generateMeshFromGeometry2D (F := F) "quadratic" nex ney maxX maxY).nodalNumbering
      e (3 * k0 + r) =
      (2 * (e / ney) + k0) * (2 * ney + 1) + (2 * (e % ney) + r) := by
    have h0 := mesh_nop_entry nex ney e k0 r he hk hr
    rw [show (generateMeshFromGeometry2D (F := F) "quadratic" nex ney maxX maxY).nodalNumbering =
      generateNodalNumbering "2D" "quadratic" nex ney (2 * nex + 1) (2 * ney + 1) from rfl]
    rw [h0]
    ring
  have hiX : 2 * (e / ney) + k0 < 2 * nex + 1 := by
    generalize hgen : e / ney = eI at heI ⊢
    omega
  have hjY : 2 * (e % ney) + r < 2 * ney + 1 := by
    generalize hgen : e % ney = eJ at heJ ⊢
    omega
  constructor
  · rw [hlg, List.getD_eq_getElem?_getD,
      nodesXCoordinates_getElem "quadratic" nex ney maxX maxY _ _ hiX hjY]
    rfl
  · rw [hlg, List.getD_eq_getElem?_getD,
      nodesYCoordinates_getElem "quadratic" nex ney maxX maxY _ _ hiX hjY]
    rfl

/-- C6: on the structured 2D quadratic mesh every element is a
straight-sided rectangle, and the detJacobian computed during assembly is
the same at every Gauss point of the element, equal to
elementWidth * elementHeight = 4 * (elementWidth/2) * (elementHeight/2)
with elementWidth = maxX/numElementsX and elementHeight = maxY/numElementsY
(the reference element is the unit square, so the constant is the
appropriately scaled (w/2)*(h/2) of the claim). -/
theorem detJacobian_rectangle_constant {F : Type} [LinearOrderedField F]
    (sqrt35 : F) (nex ney : Nat) (maxX maxY : F) (e : Nat) (he : e < nex * ney)
    (p q : F) (hp : p ∈ (getGaussPointsAndWeights sqrt35 "quadratic").1)
    (hq : q ∈ (getGaussPointsAndWeights sqrt35 "quadratic").1) :
    detJacobianAt "2D" "quadratic"
      (generateMeshFromGeometry2D "quadratic" nex ney maxX maxY).nodesXCoordinates
      (generateMeshFromGeometry2D "quadratic" nex ney maxX maxY).nodesYCoordinates
      (generateMeshFromGeometry2D "quadratic" nex ney maxX maxY).nodalNumbering
      (((generateMeshFromGeometry2D "quadratic" nex ney maxX maxY).nodalNumbering.getD
        0 []).length) e p q =
    4 * ((maxX / (nex : F)) / 2) * ((maxY / (ney : F)) / 2) := by
  have hney : 0 < ney := by
    rcases Nat.eq_zero_or_pos ney with h | h
    · rw [h, Nat.mul_zero] at he
      omega
    · exact h
  have hnex : 0 < nex := by
    rcases Nat.eq_zero_or_pos nex with h | h
    · rw [h, Nat.zero_mul] at he
      omega
    · exact h
  have h9 : (((generateMeshFromGeometry2D (F := F) "quadratic" nex ney
      maxX maxY).nodalNumbering).getD 0 []).length = 9 := by
    have hrow := generateNodalNumbering_element_row nex ney (2 * nex + 1) (2 * ney + 1)
      1 1 1 le_rfl hnex le_rfl hney le_rfl (by omega)
    have hidx : (1 - 1) * ney + (1 - 1) = 0 := by omega
    rw [hidx] at hrow
    exact hrow.2.1
  rw [h9]
  have c00 := mesh_coords_at_nop nex ney maxX maxY e 0 0 he (by omega) (by omega)
  have c01 := mesh_coords_at_nop nex ney maxX maxY e 0 1 he (by omega) (by omega)
  have c02 := mesh_coords_at_nop nex ney maxX maxY e 0 2 he (by omega) (by omega)
  have c10 := mesh_coords_at_nop nex ney maxX maxY e 1 0 he (by omega) (by omega)
  have c11 := mesh_coords_at_nop nex ney maxX maxY e 1 1 he (by omega) (by omega)
  have c12 := mesh_coords_at_nop nex ney maxX maxY e 1 2 he (by omega) (by omega)
  have c20 := mesh_coords_at_nop nex ney maxX maxY e 2 0 he (by omega) (by omega)
  have c21 := mesh_coords_at_nop nex ney maxX maxY e 2 1 he (by omega) (by omega)
  have c22 := mesh_coords_at_nop nex ney maxX maxY e 2 2 he (by omega) (by omega)
  norm_num at c00 c01 c02 c10 c11 c12 c20 c21 c22
  have hiso : ∀ (coords factor : List F),
      isoparametricSum coords
        (generateMeshFromGeometry2D (F := F) "quadratic" nex ney maxX maxY).nodalNumbering
        e 9 factor =
      coords.getD (localGlobalIndex
          (generateMeshFromGeometry2D (F := F) "quadratic" nex ney
            maxX maxY).nodalNumbering e 0) 0 * factor.getD 0 0 +
      coords.getD (localGlobalIndex
          (generateMeshFromGeometry2D (F := F) "quadratic" nex ney
            maxX maxY).nodalNumbering e 1) 0 * factor.getD 1 0 +
      coords.getD (localGlobalIndex
          (generateMeshFromGeometry2D (F := F) "quadratic" nex ney
            maxX maxY).nodalNumbering e 2) 0 * factor.getD 2 0 +
      coords.getD (localGlobalIndex
          (generateMeshFromGeometry2D (F := F) "quadratic" nex ney
            maxX maxY).nodalNumbering e 3) 0 * factor.getD 3 0 +
      coords.getD (localGlobalIndex
          (generateMeshFromGeometry2D (F := F) "quadratic" nex ney
            maxX maxY).nodalNumbering e 4) 0 * factor.getD 4 0 +
      coords.getD (localGlobalIndex
          (generateMeshFromGeometry2D (F := F) "quadratic" nex ney
            maxX maxY).nodalNumbering e 5) 0 * factor.getD 5 0 +
      coords.getD (localGlobalIndex
          (generateMeshFromGeometry2D (F := F) "quadratic" nex ney
            maxX maxY).nodalNumbering e 6) 0 * factor.getD 6 0 +
      coords.getD (localGlobalIndex
          (generateMeshFromGeometry2D (F := F) "quadratic" nex ney
            maxX maxY).nodalNumbering e 7) 0 * factor.getD 7 0 +
      coords.getD (localGlobalIndex
          (generateMeshFromGeometry2D (F := F) "quadratic" nex ney
            maxX maxY).nodalNumbering e 8) 0 * factor.getD 8 0 := by
    intro coords factor
    show ((List.range 9).map _).sum = _
    rw [sum_range_nine]
  simp only [detJacobianAt]
  rw [hiso, hiso, hiso, hiso]
  simp only [List.getD_eq_getElem?_getD]
  rw [c00.1, c00.2, c01.1, c01.2, c02.1, c02.2, c10.1, c10.2, c11.1, c11.2, c12.1, c12.2,
    c20.1, c20.2, c21.1, c21.2, c22.1, c22.2]
  simp [getBasisFunctions, quadL1, quadL2, quadL3, quadDl1, quadDl2, quadDl3]
  ring

theorem detJacobian_rectangle_constant_witness :
    (0 : Nat) < 1 * 1 ∧
    ((1 : ℚ) / 2) ∈ (getGaussPointsAndWeights (7 : ℚ) "quadratic").1 ∧
    detJacobianAt "2D" "quadratic"
      (generateMeshFromGeometry2D (F := ℚ) "quadratic" 1 1 1 1).nodesXCoordinates
      (generateMeshFromGeometry2D (F := ℚ) "quadratic" 1 1 1 1).nodesYCoordinates
      (generateMeshFromGeometry2D (F := ℚ) "quadratic" 1 1 1 1).nodalNumbering
      (((generateMeshFromGeometry2D (F := ℚ) "quadratic" 1 1 1 1).nodalNumbering.getD
        0 []).length) 0 (1 / 2) (1 / 2) =
    4 * (((1 : ℚ) / (1 : Nat)) / 2) * (((1 : ℚ) / (1 : Nat)) / 2) :=
  ⟨by decide,
   List.mem_cons_of_mem _ (List.mem_cons_self _ _),
   detJacobian_rectangle_constant 7 1 1 1 1 0 (by decide) (1 / 2) (1 / 2)
     (List.mem_cons_of_mem _ (List.mem_cons_self _ _))
     (List.mem_cons_of_mem _ (List.mem_cons_self _ _))⟩
